import Mathlib

/-!
# Verification of the roundabout collection-cycle engine

A shallow embedding of the roundabout transit-data collector
(`roundabout/transformers.py`, `collector.py`, `bgpp.py`, `orchestrator.py`,
`vehicle_tracker.py`, `clickhouse.py`, `rate_limiter.py`, `utils.py`) together
with proofs about the embedded functions.

Modelling conventions:
* Python floats are modelled as exact rationals (`ℚ`); `round` is modelled as
  exact decimal rounding with ties to even.  Binary-representation artefacts
  of IEEE doubles are outside the model.
* Python `datetime` values (always UTC in this code base) are modelled as
  epoch milliseconds (`Int`).
* JSON documents and other dynamically typed Python values are modelled by
  the inductive type `Val`; the Python value `None` is `Val.vnull` (a JSON
  `null` and Python `None` are the same object after `json.loads`).
* Fallible Python operations are `Option`/pair returning; an uncaught Python
  exception is an `Option` failure of the surrounding computation.
-/

namespace Roundabout

/-- A dynamically typed Python/JSON value, as produced by `json.loads` and
consumed by the collector's duck-typed payload access.  `vnull` is Python
`None`. -/
inductive Val where
  | vnull
  | vbool (b : Bool)
  | vint (n : Int)
  | vfloat (q : ℚ)
  | vstr (s : String)
  | vlist (xs : List Val)
  | vobj (fields : List (String × Val))

/-- `dict.get(key)` on a Python dict: the first binding of `key`, else `None`.
(A JSON-`null` field value and an absent field both yield `vnull`, exactly as
both yield `None` in Python.) -/
def dictGet (fields : List (String × Val)) (key : String) : Val :=
  match fields with
  | [] => .vnull
  | (k, v) :: rest => if k = key then v else dictGet rest key

/-- `.get(key)` through a dynamically typed value: succeeds only on a dict,
any other receiver raises `AttributeError` (modelled as `none`). -/
def Val.getAttrGet (v : Val) (key : String) : Option Val :=
  match v with
  | .vobj fields => some (dictGet fields key)
  | _ => none

/-- Truncation of a rational toward zero: the behaviour of Python `int(float)`. -/
def truncRat (q : ℚ) : Int :=
  if q.num ≥ 0 then (q.num.toNat / q.den : Nat)
  else -(((-q.num).toNat / q.den : Nat) : Int)

/-- Floor of a rational as an integer (`q.num` and `q.den` are reduced,
`q.den > 0`, and `Int.ediv` rounds toward `-∞`). -/
def floorRat (q : ℚ) : Int :=
  q.num.ediv (q.den : Int)

/-- Is this character an ASCII digit? -/
def isDigitChar (c : Char) : Bool :=
  '0' ≤ c ∧ c ≤ '9'

/-- Parse an unsigned run of decimal digits; `none` unless the list is a
non-empty all-digit run. -/
def digitsToNat : List Char → Option Nat
  | [] => none
  | cs => go cs 0
where
  go : List Char → Nat → Option Nat
    | [], acc => some acc
    | c :: rest, acc =>
      if isDigitChar c then go rest (acc * 10 + (c.toNat - '0'.toNat)) else none

/-- Python `int(s)` on a string: optional sign followed by digits
(whitespace and underscore tolerance of CPython is not modelled).  `none`
models `ValueError`. -/
def pyIntOfString (s : String) : Option Int :=
  match s.toList with
  | '-' :: rest => (digitsToNat rest).map (fun n => -(n : Int))
  | '+' :: rest => (digitsToNat rest).map (fun n => (n : Int))
  | cs => (digitsToNat cs).map (fun n => (n : Int))

/-- Parse `digits[.digits]` into a rational. -/
def decimalToRat (cs : List Char) : Option ℚ :=
  match cs.span (fun c => c ≠ '.') with
  | (intPart, []) => (digitsToNat intPart).map (fun n => (n : ℚ))
  | (intPart, _ :: fracPart) =>
    match digitsToNat intPart, digitsToNat fracPart with
    | some i, some f => some ((i : ℚ) + (f : ℚ) / ((10 : ℚ) ^ fracPart.length))
    | _, _ => none

/-- Python `float(s)` on a string: optional sign, then `digits[.digits]`,
optionally a decimal exponent (`e`/`E`).  The non-finite literals
(`inf`/`nan`), which have no rational counterpart, are outside the model.
`none` models `ValueError`. -/
def pyFloatOfString (s : String) : Option ℚ :=
  match s.toList with
  | '-' :: rest => (pyFloatBody rest).map (fun q => -q)
  | '+' :: rest => pyFloatBody rest
  | cs => pyFloatBody cs
where
  pyFloatBody (cs : List Char) : Option ℚ :=
    match cs.span (fun c => c ≠ 'e' ∧ c ≠ 'E') with
    | (mant, []) => decimalToRat mant
    | (mant, _ :: expPart) =>
      match decimalToRat mant, pyExp expPart with
      | some m, some e => some (m * e)
      | _, _ => none
  pyExp (cs : List Char) : Option ℚ :=
    match cs with
    | '-' :: ds => (digitsToNat ds).map (fun n => ((10 : ℚ) ^ n)⁻¹)
    | '+' :: ds => (digitsToNat ds).map (fun n => ((10 : ℚ) ^ n : ℚ))
    | ds => (digitsToNat ds).map (fun n => ((10 : ℚ) ^ n : ℚ))

/-- Python `int(value)` under a `try:` that catches `TypeError`/`ValueError`:
the conversions `int` actually performs, `none` for everything it raises on. -/
def pyIntOpt : Val → Option Int
  | .vint n => some n
  | .vbool b => some (if b then 1 else 0)
  | .vfloat q => some (truncRat q)
  | .vstr s => pyIntOfString s
  | _ => none

/-- Python `float(value)` under a `try:` that catches
`TypeError`/`ValueError`. -/
def pyFloatOpt : Val → Option ℚ
  | .vint n => some (n : ℚ)
  | .vbool b => some (if b then 1 else 0)
  | .vfloat q => some q
  | .vstr s => pyFloatOfString s
  | _ => none

/-- Zero-pad a digit string on the left to width `k`. -/
def padLeftZeros (s : String) (k : Nat) : String :=
  String.mk (List.replicate (k - s.length) '0') ++ s

/-- The least number of decimal digits (up to 17) that represents `q`
exactly, if any. -/
def ratShortestK (q : ℚ) : Option Nat :=
  (List.range 18).find? (fun k => (q * (10 : ℚ) ^ k).den = 1)

/-- `repr`/`str` of a non-negative Python float, modelled on exact rationals:
the shortest decimal expansion, with at least one digit after the point
(`44.0`, `44.79215`).  CPython's switch to scientific notation for
`|x| < 1e-4` or `|x| ≥ 1e16`, and non-terminating binary expansions (every
IEEE double terminates), are outside the model; the fallback truncates at 17
digits. -/
def floatReprNonneg (q : ℚ) : String :=
  match ratShortestK q with
  | some 0 => toString q.num ++ ".0"
  | some (k + 1) =>
    let m := (q * (10 : ℚ) ^ (k + 1)).num.toNat
    toString (m / 10 ^ (k + 1)) ++ "." ++ padLeftZeros (toString (m % 10 ^ (k + 1))) (k + 1)
  | none =>
    let m := (truncRat (q * (10 : ℚ) ^ 17)).toNat
    toString (m / 10 ^ 17) ++ "." ++ padLeftZeros (toString (m % 10 ^ 17)) 17

/-- `repr`/`str` of a Python float (`float.__repr__`). -/
def floatRepr (q : ℚ) : String :=
  if q < 0 then "-" ++ floatReprNonneg (-q) else floatReprNonneg q

mutual

/-- Python `repr(value)` for the values that can appear in an API payload.
String quoting uses `'` without inner-quote escaping (enough for the fields
this code base passes through `str`). -/
def pyRepr : Val → String
  | .vnull => "None"
  | .vbool b => if b then "True" else "False"
  | .vint n => toString n
  | .vfloat q => floatRepr q
  | .vstr s => "'" ++ s ++ "'"
  | .vlist xs => "[" ++ String.intercalate ", " (pyReprList xs) ++ "]"
  | .vobj fields => "\x7b" ++ String.intercalate ", " (pyReprFields fields) ++ "\x7d"

/-- `repr` of each element of a list. -/
def pyReprList : List Val → List String
  | [] => []
  | v :: rest => pyRepr v :: pyReprList rest

/-- `repr` of each `key: value` member of a dict. -/
def pyReprFields : List (String × Val) → List String
  | [] => []
  | (k, v) :: rest => ("'" ++ k ++ "': " ++ pyRepr v) :: pyReprFields rest

end

/-- Python `str(value)`: the value itself for strings, otherwise `repr`. -/
def pyStr (v : Val) : String :=
  match v with
  | .vstr s => s
  | _ => pyRepr v

/-- Nearest integer with ties to even. -/
def roundHalfEven (q : ℚ) : Int :=
  let f := floorRat q
  let r := q - (f : ℚ)
  if r < 1 / 2 then f
  else if 1 / 2 < r then f + 1
  else if f % 2 = 0 then f else f + 1

/-- Python `round(x, dp)` modelled as exact decimal rounding of the rational
with ties to even.  (On IEEE doubles the tie direction can differ when the
stored binary value is not exactly the printed decimal; that binary artefact
is outside the rational model.) -/
def pyRound (q : ℚ) (dp : Nat) : ℚ :=
  (roundHalfEven (q * (10 : ℚ) ^ dp) : ℚ) / (10 : ℚ) ^ dp

/-- Lower-case hex digit. -/
def hexDigitLower (n : Nat) : Char :=
  if n < 10 then Char.ofNat ('0'.toNat + n) else Char.ofNat ('a'.toNat + (n - 10))

/-- `digits` lower-case hex digits of `n`, most significant first. -/
def toHexNat (n : Nat) (digits : Nat) : String :=
  String.mk ((List.range digits).map (fun i => hexDigitLower ((n >>> (4 * (digits - 1 - i))) % 16)))

/-- One character escaped as `json.dumps` (default `ensure_ascii=True`)
escapes it: `"` and `\` get a backslash, the named control escapes are used
for `\b \t \n \f \r`, every other char below `0x20` or at/above `0x7f`
becomes `\uXXXX` (a surrogate pair above `0xffff`). -/
def jsonEscapeChar (c : Char) : String :=
  if c = '"' then "\\\""
  else if c = '\\' then "\\\\"
  else if c = Char.ofNat 8 then "\\b"
  else if c = Char.ofNat 9 then "\\t"
  else if c = Char.ofNat 10 then "\\n"
  else if c = Char.ofNat 12 then "\\f"
  else if c = Char.ofNat 13 then "\\r"
  else if c.toNat < 0x20 ∨ 0x7f ≤ c.toNat then
    if c.toNat < 0x10000 then "\\u" ++ toHexNat c.toNat 4
    else
      let v := c.toNat - 0x10000
      "\\u" ++ toHexNat (0xd800 + v / 0x400) 4 ++ "\\u" ++ toHexNat (0xdc00 + v % 0x400) 4
  else String.singleton c

/-- The body of a JSON string under `ensure_ascii` escaping. -/
def jsonEscape (s : String) : String :=
  String.join (s.toList.map jsonEscapeChar)

/-- The JSON values that occur in the vehicle-key payload dict: `None`,
strings, and floats. -/
inductive JVal where
  | jnull
  | jstr (s : String)
  | jnum (q : ℚ)

/-- `json.dumps` of one scalar value. -/
def JVal.render : JVal → String
  | .jnull => "null"
  | .jstr s => "\"" ++ jsonEscape s ++ "\""
  | .jnum q => floatRepr q

/-- Code-point lexicographic `≤` on strings — Python's `str` ordering, used
by `sort_keys`. -/
def charListLe : List Char → List Char → Bool
  | [], _ => true
  | _ :: _, [] => false
  | a :: as, b :: bs => if a < b then true else if b < a then false else charListLe as bs

/-- String comparison by code points. -/
def strLe (a b : String) : Bool :=
  charListLe a.toList b.toList

/-- Stable insertion of a binding into a key-sorted list. -/
def insertByKey (p : String × JVal) : List (String × JVal) → List (String × JVal)
  | [] => [p]
  | q :: rest =>
    if strLe p.1 q.1 ∧ ¬strLe q.1 p.1 then p :: q :: rest else q :: insertByKey p rest

/-- Stable sort of the bindings by key (the effect of `sort_keys=True`). -/
def sortByKey (l : List (String × JVal)) : List (String × JVal) :=
  l.foldr insertByKey []

/-- One `"key": value` member of a JSON object. -/
def jsonMember (p : String × JVal) : String :=
  "\"" ++ jsonEscape p.1 ++ "\": " ++ p.2.render

/-- `json.dumps(payload, sort_keys=True)` for a flat object of scalar values,
with the default separators `", "` and `": "`. -/
def jsonDumpsSortKeys (l : List (String × JVal)) : String :=
  "\x7b" ++ String.intercalate ", " ((sortByKey l).map jsonMember) ++ "\x7d"

/-- UTF-8 encoding of one scalar value. -/
def utf8EncodeChar (c : Char) : List Nat :=
  let n := c.toNat
  if n < 0x80 then [n]
  else if n < 0x800 then [0xc0 + n / 0x40, 0x80 + n % 0x40]
  else if n < 0x10000 then [0xe0 + n / 0x1000, 0x80 + n / 0x40 % 0x40, 0x80 + n % 0x40]
  else [0xf0 + n / 0x40000, 0x80 + n / 0x1000 % 0x40, 0x80 + n / 0x40 % 0x40, 0x80 + n % 0x40]

/-- `s.encode("utf-8")` as a byte list. -/
def utf8Bytes (s : String) : List Nat :=
  (s.toList.map utf8EncodeChar).flatten

/-- Truncate to a 32-bit word. -/
def w32 (n : Nat) : Nat :=
  n % 2 ^ 32

/-- 32-bit right rotation. -/
def rotr32 (r x : Nat) : Nat :=
  w32 ((x >>> r) ||| (x <<< (32 - r)))

/-- The SHA-256 round constants. -/
def sha256K : List Nat :=
  [1116352408, 1899447441, 3049323471, 3921009573, 961987163, 1508970993,
   2453635748, 2870763221, 3624381080, 310598401, 607225278, 1426881987,
   1925078388, 2162078206, 2614888103, 3248222580, 3835390401, 4022224774,
   264347078, 604807628, 770255983, 1249150122, 1555081692, 1996064986,
   2554220882, 2821834349, 2952996808, 3210313671, 3336571891, 3584528711,
   113926993, 338241895, 666307205, 773529912, 1294757372, 1396182291,
   1695183700, 1986661051, 2177026350, 2456956037, 2730485921, 2820302411,
   3259730800, 3345764771, 3516065817, 3600352804, 4094571909, 275423344,
   430227734, 506948616, 659060556, 883997877, 958139571, 1322822218,
   1537002063, 1747873779, 1955562222, 2024104815, 2227730452, 2361852424,
   2428436474, 2756734187, 3204031479, 3329325298]

/-- The SHA-256 initial hash state. -/
def sha256H0 : List Nat :=
  [1779033703, 3144134277, 1013904242, 2773480762,
   1359893119, 2600822924, 528734635, 1541459225]

/-- Merkle–Damgård padding: `0x80`, zeros to 56 mod 64, then the bit length
as eight big-endian bytes. -/
def sha256Pad (msg : List Nat) : List Nat :=
  let z := (64 + 56 - (msg.length + 1) % 64) % 64
  msg ++ [0x80] ++ List.replicate z 0 ++
    (List.range 8).map (fun i => (8 * msg.length) >>> (8 * (7 - i)) % 256)

/-- Big-endian 32-bit words from bytes. -/
def bytesToWords : List Nat → List Nat
  | b0 :: b1 :: b2 :: b3 :: rest => (((b0 * 256 + b1) * 256 + b2) * 256 + b3) :: bytesToWords rest
  | _ => []

/-- Extend the 16 block words to 64 schedule words; `acc` holds the words
produced so far, most recent first. -/
def sha256Extend : Nat → List Nat → List Nat
  | 0, acc => acc.reverse
  | n + 1, acc =>
    let g (j : Nat) : Nat := acc.getD (j - 1) 0
    let s0 := rotr32 7 (g 15) ^^^ rotr32 18 (g 15) ^^^ (g 15 >>> 3)
    let s1 := rotr32 17 (g 2) ^^^ rotr32 19 (g 2) ^^^ (g 2 >>> 10)
    sha256Extend n (w32 (g 16 + s0 + g 7 + s1) :: acc)

/-- One SHA-256 compression round on the state `[a,b,c,d,e,f,g,h]`. -/
def sha256Round (st : List Nat) (kw : Nat × Nat) : List Nat :=
  let a := st.getD 0 0
  let b := st.getD 1 0
  let c := st.getD 2 0
  let d := st.getD 3 0
  let e := st.getD 4 0
  let f := st.getD 5 0
  let g := st.getD 6 0
  let h := st.getD 7 0
  let s1 := rotr32 6 e ^^^ rotr32 11 e ^^^ rotr32 25 e
  let ch := (e &&& f) ^^^ ((2 ^ 32 - 1 - e) &&& g)
  let t1 := w32 (h + s1 + ch + kw.1 + kw.2)
  let s0 := rotr32 2 a ^^^ rotr32 13 a ^^^ rotr32 22 a
  let maj := (a &&& b) ^^^ (a &&& c) ^^^ (b &&& c)
  let t2 := w32 (s0 + maj)
  [w32 (t1 + t2), a, b, c, w32 (d + t1), e, f, g]

/-- Compress one 16-word block into the running hash. -/
def sha256Compress (h : List Nat) (block : List Nat) : List Nat :=
  let ws := sha256Extend 48 block.reverse
  let st := (sha256K.zip ws).foldl sha256Round h
  (h.zip st).map (fun p => w32 (p.1 + p.2))

/-- Fold all 16-word blocks (`fuel` bounds the recursion). -/
def sha256Process (fuel : Nat) (h : List Nat) (ws : List Nat) : List Nat :=
  match fuel, ws with
  | 0, _ => h
  | _, [] => h
  | f + 1, ws => sha256Process f (sha256Compress h (ws.take 16)) (ws.drop 16)

/-- `hashlib.sha256(s.encode("utf-8")).hexdigest()`. -/
def sha256hex (s : String) : String :=
  let ws := bytesToWords (sha256Pad (utf8Bytes s))
  String.join ((sha256Process ws.length sha256H0 ws).map (fun w => toHexNat w 8))

/-- Two-digit zero-padded decimal. -/
def pad2 (n : Nat) : String :=
  padLeftZeros (toString n) 2

/-- Civil date from days since the Unix epoch (Gregorian calendar). -/
def civilFromDays (z0 : Int) : Int × Nat × Nat :=
  let z := z0 + 719468
  let doe := (z.emod 146097).toNat
  let yoe := (doe - doe / 1460 + doe / 36524 - doe / 146096) / 365
  let doy := doe - (365 * yoe + yoe / 4 - yoe / 100)
  let mp := (5 * doy + 2) / 153
  let d := doy - (153 * mp + 2) / 5 + 1
  let m := if mp < 10 then mp + 3 else mp - 9
  let y := (yoe : Int) + z.ediv 146097 * 400
  (if m ≤ 2 then y + 1 else y, m, d)

/-- `value.astimezone(utc).isoformat(timespec="milliseconds").replace("+00:00", "Z")`
on a UTC instant given as epoch milliseconds: the shared `datetime` rendering
both `utils.format_timestamp` and `collector._format_ts` perform.  The
`+00:00` suffix `isoformat` emits is already replaced by the literal `Z`. -/
def isoMillisUTC (ms : Int) : String :=
  let msod := (ms.emod 86400000).toNat
  let c := civilFromDays (ms.ediv 86400000)
  let y := c.1
  (if 0 ≤ y then padLeftZeros (toString y.toNat) 4 else toString y) ++
    "-" ++ pad2 c.2.1 ++ "-" ++ pad2 c.2.2 ++
    "T" ++ pad2 (msod / 3600000) ++ ":" ++ pad2 (msod / 60000 % 60) ++
    ":" ++ pad2 (msod / 1000 % 60) ++ "." ++ padLeftZeros (toString (msod % 1000)) 3 ++ "Z"

/-- GTFS stop record (`roundabout/gtfs.py`, `Stop`). -/
structure Stop where
  stop_id : Int
  stop_code : String
  stop_name : String
  stop_lat : ℚ
  stop_lon : ℚ

/-- Result of fetching stop predictions (`roundabout/bgpp.py`,
`FetchResult`).  `observed_at` is a UTC instant in epoch milliseconds;
`payload` is the parsed JSON document, with `Val.vnull` encoding the Python
`None` that `json.loads` returns for a `null` body. -/
structure FetchResult where
  stop_code : String
  observed_at : Int
  payload : Val
  error : Option String
  status : Option Int
  duration_ms : Int
  attempts : Nat

namespace Utils

/-- `utils.parse_int`: `None` for `None`, else `int(value)` with
`TypeError`/`ValueError` absorbed to `None`. -/
def parse_int (value : Val) : Option Int :=
  match value with
  | .vnull => none
  | v => pyIntOpt v

/-- `utils.parse_float`: `None` for `None`, else `float(value)` with
`TypeError`/`ValueError` absorbed to `None`. -/
def parse_float (value : Val) : Option ℚ :=
  match value with
  | .vnull => none
  | v => pyFloatOpt v

/-- `utils.format_timestamp` (default `timespec="milliseconds"`): ISO-8601
UTC with a literal `Z`. -/
def format_timestamp (value : Int) : String :=
  isoMillisUTC value

/-- `utils.parse_coords`: a `[lat, lon]` pair from a list/tuple of length at
least two, `(None, None)` otherwise. -/
def parse_coords (coords : Val) : Option ℚ × Option ℚ :=
  match coords with
  | .vlist (c0 :: c1 :: _) => (parse_float c0, parse_float c1)
  | _ => (none, none)

/-- `utils.round_coordinate`: round to `decimal_places` decimals, `None`
passes through. -/
def round_coordinate (value : Option ℚ) (decimal_places : Nat) : Option ℚ :=
  match value with
  | none => none
  | some v => some (pyRound v decimal_places)

end Utils

/-- `constants.COORDINATE_DECIMAL_PLACES`. -/
def COORDINATE_DECIMAL_PLACES : Nat := 5

/-- `constants.VEHICLE_KEY_HASH_LENGTH`. -/
def VEHICLE_KEY_HASH_LENGTH : Nat := 16

/-- The Python idiom `str(x) if x is not None else None`. -/
def strOrNone (v : Val) : Option String :=
  match v with
  | .vnull => none
  | v => some (pyStr v)

/-- A normalized vehicle dict (the fixed-shape dict both
`transformers.normalize_vehicle` and `collector._normalize_vehicle`
return). -/
structure NormalizedVehicle where
  line_number : Option String
  line_name : Val
  direction : Option String
  seconds_left : Option Int
  stations_between : Option Int
  vehicle_id : Option String
  vehicle_lat : Option ℚ
  vehicle_lon : Option ℚ

/-- An `Option String` field as the JSON value put into the key payload. -/
def jOptStr : Option String → JVal
  | none => .jnull
  | some s => .jstr s

/-- An `Option ℚ` field as the JSON value put into the key payload. -/
def jOptNum : Option ℚ → JVal
  | none => .jnull
  | some q => .jnum q

/-- One prediction row (the dict `transformers.build_prediction_record` and
`collector._prediction_record` build). -/
structure PredictionRecord where
  observed_at : String
  cycle_id : String
  stop_id : Int
  stop_code : String
  api_stop_uid : Val
  line_number : Option String
  line_name : Val
  direction : Option String
  seconds_left : Option Int
  predicted_arrival_at : Option String
  stations_between : Option Int
  vehicle_id : Option String
  vehicle_key : String
  vehicle_lat : Option ℚ
  vehicle_lon : Option ℚ

/-- One unique-vehicle row (the dict `transformers.build_vehicle_record`
and `collector._vehicle_record` build). -/
structure VehicleRecord where
  observed_at : String
  cycle_id : String
  vehicle_id : Option String
  vehicle_key : String
  line_number : Option String
  line_name : Val
  direction : Option String
  vehicle_lat : Option ℚ
  vehicle_lon : Option ℚ
  source_stop_id : Int
  source_stop_code : String
  seconds_left : Option Int
  stations_between : Option Int

/-- One error row (the dict `transformers.build_error_record`,
`collector._error_record`, and the orchestrator's inline
`unexpected_record` build). -/
structure ErrorRecord where
  observed_at : String
  cycle_id : String
  stop_id : Int
  stop_code : String
  error : Option String
  http_status : Option Int
  attempts : Nat
  duration_ms : Int

namespace Transformers

/-- `transformers.normalize_vehicle`. -/
def normalize_vehicle (vehicle : List (String × Val)) : NormalizedVehicle :=
  let line_number := dictGet vehicle "lineNumber"
  let line_name := dictGet vehicle "lineName"
  let direction := dictGet vehicle "direction"
  let seconds_left := Utils.parse_int (dictGet vehicle "secondsLeft")
  let stations_between := Utils.parse_int (dictGet vehicle "stationsBetween")
  let vehicle_id := dictGet vehicle "garageNo"
  let coords := Utils.parse_coords (dictGet vehicle "coords")
  { line_number := strOrNone line_number
    line_name := line_name
    direction := strOrNone direction
    seconds_left := seconds_left
    stations_between := stations_between
    vehicle_id := strOrNone vehicle_id
    vehicle_lat := coords.1
    vehicle_lon := coords.2 }

/-- The hash fallback branch of `transformers.build_vehicle_key`: the
canonical sorted JSON payload of line/direction/rounded coordinates, with
`stop_code` added when either rounded coordinate is `None`, hashed with
SHA-256 and truncated to 16 hex characters. -/
def hashVehicleKey (line_number direction : Option String) (lat lon : Option ℚ)
    (stop_code : String) : String :=
  let latR := Utils.round_coordinate lat COORDINATE_DECIMAL_PLACES
  let lonR := Utils.round_coordinate lon COORDINATE_DECIMAL_PLACES
  let base : List (String × JVal) :=
    [("line_number", jOptStr line_number), ("direction", jOptStr direction),
     ("lat", jOptNum latR), ("lon", jOptNum lonR)]
  let key_payload := if latR = none ∨ lonR = none
    then base ++ [("stop_code", JVal.jstr stop_code)] else base
  let raw := jsonDumpsSortKeys key_payload
  "hash:" ++ (sha256hex raw).take VEHICLE_KEY_HASH_LENGTH

/-- `transformers.build_vehicle_key`; `if vehicle_id:` is Python truthiness,
so the garage branch is taken exactly for a present, non-empty id
(`VEHICLE_KEY_PREFIX_GARAGE = "garage"` inlined). -/
def build_vehicle_key (vehicle_id line_number direction : Option String)
    (lat lon : Option ℚ) (stop_code : String) : String :=
  match vehicle_id with
  | some vid =>
    if vid = "" then hashVehicleKey line_number direction lat lon stop_code
    else "garage:" ++ vid
  | none => hashVehicleKey line_number direction lat lon stop_code

/-- `transformers.build_prediction_record`. -/
def build_prediction_record (stop : Stop) (result : FetchResult)
    (vehicle : List (String × Val)) (cycle_id : String) : PredictionRecord :=
  let normalized := normalize_vehicle vehicle
  let seconds_left := normalized.seconds_left
  let observed_at := result.observed_at
  let predicted_arrival_at :=
    seconds_left.map (fun s => Utils.format_timestamp (observed_at + s * 1000))
  let vehicle_key := build_vehicle_key normalized.vehicle_id normalized.line_number
    normalized.direction normalized.vehicle_lat normalized.vehicle_lon stop.stop_code
  { observed_at := Utils.format_timestamp observed_at
    cycle_id := cycle_id
    stop_id := stop.stop_id
    stop_code := stop.stop_code
    api_stop_uid := match result.payload with | .vobj fs => dictGet fs "uid" | _ => .vnull
    line_number := normalized.line_number
    line_name := normalized.line_name
    direction := normalized.direction
    seconds_left := seconds_left
    predicted_arrival_at := predicted_arrival_at
    stations_between := normalized.stations_between
    vehicle_id := normalized.vehicle_id
    vehicle_key := vehicle_key
    vehicle_lat := normalized.vehicle_lat
    vehicle_lon := normalized.vehicle_lon }

/-- `transformers.build_vehicle_record` (the `result` argument is accepted
and unused, as in the source). -/
def build_vehicle_record (stop : Stop) (_result : FetchResult)
    (prediction : PredictionRecord) : VehicleRecord :=
  { observed_at := prediction.observed_at
    cycle_id := prediction.cycle_id
    vehicle_id := prediction.vehicle_id
    vehicle_key := prediction.vehicle_key
    line_number := prediction.line_number
    line_name := prediction.line_name
    direction := prediction.direction
    vehicle_lat := prediction.vehicle_lat
    vehicle_lon := prediction.vehicle_lon
    source_stop_id := stop.stop_id
    source_stop_code := stop.stop_code
    seconds_left := prediction.seconds_left
    stations_between := prediction.stations_between }

/-- `transformers.build_error_record`. -/
def build_error_record (stop : Stop) (result : FetchResult)
    (cycle_id : String) : ErrorRecord :=
  { observed_at := Utils.format_timestamp result.observed_at
    cycle_id := cycle_id
    stop_id := stop.stop_id
    stop_code := stop.stop_code
    error := result.error
    http_status := result.status
    attempts := result.attempts
    duration_ms := result.duration_ms }

end Transformers

namespace Collector

/-- `collector._format_ts` (identical source text to
`utils.format_timestamp`). -/
def format_ts (value : Int) : String :=
  isoMillisUTC value

/-- `collector._parse_int`. -/
def parse_int (value : Val) : Option Int :=
  match value with
  | .vnull => none
  | v => pyIntOpt v

/-- `collector._parse_float`. -/
def parse_float (value : Val) : Option ℚ :=
  match value with
  | .vnull => none
  | v => pyFloatOpt v

/-- `collector._parse_coords`. -/
def parse_coords (coords : Val) : Option ℚ × Option ℚ :=
  match coords with
  | .vlist (c0 :: c1 :: _) => (parse_float c0, parse_float c1)
  | _ => (none, none)

/-- `collector._round_coord`: `round(value, 5)` with `None` passing
through. -/
def round_coord (value : Option ℚ) : Option ℚ :=
  match value with
  | none => none
  | some v => some (pyRound v 5)

/-- The hash fallback branch of `collector._build_vehicle_key`. -/
def hashVehicleKey (line_number direction : Option String) (lat lon : Option ℚ)
    (stop_code : String) : String :=
  let latR := round_coord lat
  let lonR := round_coord lon
  let base : List (String × JVal) :=
    [("line_number", jOptStr line_number), ("direction", jOptStr direction),
     ("lat", jOptNum latR), ("lon", jOptNum lonR)]
  let key_payload := if latR = none ∨ lonR = none
    then base ++ [("stop_code", JVal.jstr stop_code)] else base
  let raw := jsonDumpsSortKeys key_payload
  "hash:" ++ (sha256hex raw).take 16

/-- `collector._build_vehicle_key`. -/
def build_vehicle_key (vehicle_id line_number direction : Option String)
    (lat lon : Option ℚ) (stop_code : String) : String :=
  match vehicle_id with
  | some vid =>
    if vid = "" then hashVehicleKey line_number direction lat lon stop_code
    else "garage:" ++ vid
  | none => hashVehicleKey line_number direction lat lon stop_code

/-- `collector._normalize_vehicle`. -/
def normalize_vehicle (vehicle : List (String × Val)) : NormalizedVehicle :=
  let line_number := dictGet vehicle "lineNumber"
  let line_name := dictGet vehicle "lineName"
  let direction := dictGet vehicle "direction"
  let seconds_left := parse_int (dictGet vehicle "secondsLeft")
  let stations_between := parse_int (dictGet vehicle "stationsBetween")
  let vehicle_id := dictGet vehicle "garageNo"
  let coords := parse_coords (dictGet vehicle "coords")
  { line_number := strOrNone line_number
    line_name := line_name
    direction := strOrNone direction
    seconds_left := seconds_left
    stations_between := stations_between
    vehicle_id := strOrNone vehicle_id
    vehicle_lat := coords.1
    vehicle_lon := coords.2 }

/-- `collector._prediction_record`. -/
def prediction_record (stop : Stop) (result : FetchResult)
    (vehicle : List (String × Val)) (cycle_id : String) : PredictionRecord :=
  let normalized := normalize_vehicle vehicle
  let seconds_left := normalized.seconds_left
  let observed_at := result.observed_at
  let predicted_arrival_at :=
    seconds_left.map (fun s => format_ts (observed_at + s * 1000))
  let vehicle_key := build_vehicle_key normalized.vehicle_id normalized.line_number
    normalized.direction normalized.vehicle_lat normalized.vehicle_lon stop.stop_code
  { observed_at := format_ts observed_at
    cycle_id := cycle_id
    stop_id := stop.stop_id
    stop_code := stop.stop_code
    api_stop_uid := match result.payload with | .vobj fs => dictGet fs "uid" | _ => .vnull
    line_number := normalized.line_number
    line_name := normalized.line_name
    direction := normalized.direction
    seconds_left := seconds_left
    predicted_arrival_at := predicted_arrival_at
    stations_between := normalized.stations_between
    vehicle_id := normalized.vehicle_id
    vehicle_key := vehicle_key
    vehicle_lat := normalized.vehicle_lat
    vehicle_lon := normalized.vehicle_lon }

/-- `collector._vehicle_record`. -/
def vehicle_record (stop : Stop) (_result : FetchResult)
    (prediction : PredictionRecord) : VehicleRecord :=
  { observed_at := prediction.observed_at
    cycle_id := prediction.cycle_id
    vehicle_id := prediction.vehicle_id
    vehicle_key := prediction.vehicle_key
    line_number := prediction.line_number
    line_name := prediction.line_name
    direction := prediction.direction
    vehicle_lat := prediction.vehicle_lat
    vehicle_lon := prediction.vehicle_lon
    source_stop_id := stop.stop_id
    source_stop_code := stop.stop_code
    seconds_left := prediction.seconds_left
    stations_between := prediction.stations_between }

/-- `collector._error_record`. -/
def error_record (stop : Stop) (result : FetchResult)
    (cycle_id : String) : ErrorRecord :=
  { observed_at := format_ts result.observed_at
    cycle_id := cycle_id
    stop_id := stop.stop_id
    stop_code := stop.stop_code
    error := result.error
    http_status := result.status
    attempts := result.attempts
    duration_ms := result.duration_ms }

end Collector

namespace Bgpp

/-- The outcome the environment hands one attempt of `fetch_stop`: either
`urlopen`+`read`+`json.loads` succeed (with the parsed document and the
response's `status` attribute, `None` when absent), or one of the three
caught exception classes is raised.  A JSON decode failure is a
`ValueError`, i.e. `oserror`. -/
inductive Attempt where
  | success (payload : Val) (status : Option Int)
  | httpError (code : Int)
  | urlError (reason : String)
  | oserror (msg : String)

/-- The retry loop of `bgpp.fetch_stop` (`for attempt in range(1, retries + 2)`),
with the remaining iteration count as the recursion fuel.  `outcomes n` is
what attempt number `n` observes; `observed_at`/`duration_ms` stand for the
wall-clock readings.  The `last_error or "unknown_error"` fallback and the
`status` variable persisting across attempts are modelled as in the
source. -/
def fetchLoop (outcomes : Nat → Attempt) (stop_code : String)
    (observed_at duration_ms : Int) (retries : Nat) :
    Nat → Nat → Option String → Option Int → FetchResult
  | 0, _, lastError, status =>
    { stop_code := stop_code, observed_at := observed_at, payload := .vnull
      error := some (lastError.getD "unknown_error"), status := status
      duration_ms := duration_ms, attempts := retries + 1 }
  | n + 1, attempt, lastError, status =>
    match outcomes attempt with
    | .success p st =>
      { stop_code := stop_code, observed_at := observed_at, payload := p
        error := none, status := st, duration_ms := duration_ms, attempts := attempt }
    | .httpError c =>
      fetchLoop outcomes stop_code observed_at duration_ms retries n (attempt + 1)
        (some ("http_error:" ++ toString c)) (some c)
    | .urlError r =>
      fetchLoop outcomes stop_code observed_at duration_ms retries n (attempt + 1)
        (some ("url_error:" ++ r)) status
    | .oserror m =>
      fetchLoop outcomes stop_code observed_at duration_ms retries n (attempt + 1)
        (some ("error:" ++ m)) status

/-- `bgpp.fetch_stop`. -/
def fetch_stop (outcomes : Nat → Attempt) (stop_code : String)
    (observed_at duration_ms : Int) (retries : Nat) : FetchResult :=
  fetchLoop outcomes stop_code observed_at duration_ms retries (retries + 1) 1 none none

end Bgpp

namespace RateLimiter

/-- The state `TokenBucketRateLimiter.__init__` establishes
(`rate_limiter.py`). -/
structure TokenBucketRateLimiter where
  tokens_per_second : ℚ
  bucket_capacity : Int
  tokens : ℚ

/-- `TokenBucketRateLimiter.__init__`; `none` models the `ValueError` for a
non-positive rate.  `bucket_capacity or int(tokens_per_second * 2)` is
Python `or`, so an explicit capacity of `0` (falsy) also falls back to the
truncated default. -/
def init (tokens_per_second : ℚ) (bucket_capacity : Option Int) :
    Option TokenBucketRateLimiter :=
  if tokens_per_second ≤ 0 then none
  else
    let cap := match bucket_capacity with
      | some c => if c = 0 then truncRat (tokens_per_second * 2) else c
      | none => truncRat (tokens_per_second * 2)
    some { tokens_per_second := tokens_per_second, bucket_capacity := cap
           tokens := (cap : ℚ) }

end RateLimiter

namespace ClickHouse

/-- The buffer state of `ClickHouseBatchWriter` for one destination table;
the record type is abstract.  The client and table name play no role in the
buffering logic and are dropped. -/
structure BatchWriter (α : Type) where
  batch_size : Nat
  buffer : List α

/-- `ClickHouseBatchWriter.__init__`: `self._batch_size = max(1, batch_size)`,
empty buffer. -/
def BatchWriter.init (α : Type) (batch_size : Int) : BatchWriter α :=
  { batch_size := (max 1 batch_size).toNat, buffer := [] }

/-- `ClickHouseBatchWriter.flush`.  `sink` is
`client.insert_json_each_row` (its only failure mode is `ClickHouseError`).
The second component is the observable effect: `none` when the sink was not
called, otherwise the batch it was called with together with the logged
error message (`none` on success).  The `finally:` clears the buffer on both
paths, and the exception is caught, so `flush` always returns. -/
def BatchWriter.flush (sink : List α → Except String Unit) (w : BatchWriter α) :
    BatchWriter α × Option (List α × Option String) :=
  if w.buffer.isEmpty then (w, none)
  else
    match sink w.buffer with
    | .ok _ => ({ w with buffer := [] }, some (w.buffer, none))
    | .error e => ({ w with buffer := [] }, some (w.buffer, some e))

/-- `ClickHouseBatchWriter.write`: append, then flush when
`len(self._buffer) >= self._batch_size`. -/
def BatchWriter.write (sink : List α → Except String Unit) (w : BatchWriter α)
    (record : α) : BatchWriter α × Option (List α × Option String) :=
  let w' := { w with buffer := w.buffer ++ [record] }
  if w'.batch_size ≤ w'.buffer.length then BatchWriter.flush sink w' else (w', none)

/-- `ClickHouseBatchWriter.close`: a final flush. -/
def BatchWriter.close (sink : List α → Except String Unit) (w : BatchWriter α) :
    BatchWriter α × Option (List α × Option String) :=
  BatchWriter.flush sink w

end ClickHouse

namespace Tracker

/-- `vehicle_tracker.VehicleState`.  Timestamps are epoch milliseconds. -/
structure VehicleState where
  vehicle_key : String
  last_cycle_id : String
  last_observed_at : Int
  last_lat : Option ℚ
  last_lon : Option ℚ
  last_stop_code : String
  last_line_number : Option String
  first_seen_cycle_id : String
  cycles_seen : Nat

/-- The mutable state of `vehicle_tracker.VehicleTracker`.  The dicts are
association lists in insertion order, mirroring Python dict semantics. -/
structure VehicleTracker where
  states : List (String × VehicleState)
  ttl_cycles : Nat
  cycle_counter : Nat
  cycle_to_vehicles : List (Nat × List String)

/-- Dict lookup. -/
def lookupAssoc (l : List (String × VehicleState)) (k : String) : Option VehicleState :=
  match l with
  | [] => none
  | (k', v) :: rest => if k' = k then some v else lookupAssoc rest k

/-- Dict assignment: overwrite in place, or append a new binding. -/
def insertAssoc (l : List (String × VehicleState)) (k : String) (v : VehicleState) :
    List (String × VehicleState) :=
  match l with
  | [] => [(k, v)]
  | (k', v') :: rest => if k' = k then (k, v) :: rest else (k', v') :: insertAssoc rest k v

/-- Dict deletion (`del`): drop the binding. -/
def eraseAssoc (l : List (String × VehicleState)) (k : String) :
    List (String × VehicleState) :=
  match l with
  | [] => []
  | (k', v') :: rest => if k' = k then rest else (k', v') :: eraseAssoc rest k

/-- `cycle_to_vehicles.setdefault(c, set()).add(k)` in effect: ensure the
bucket for cycle `c` exists and contains `k`. -/
def bucketAdd (m : List (Nat × List String)) (c : Nat) (k : String) :
    List (Nat × List String) :=
  match m with
  | [] => [(c, [k])]
  | (c', ks) :: rest =>
    if c' = c then (c', if k ∈ ks then ks else ks ++ [k]) :: rest
    else (c', ks) :: bucketAdd rest c k

/-- `VehicleTracker.__init__`; `none` models the `ValueError` for
`ttl_cycles < 1`. -/
def VehicleTracker.init (ttl_cycles : Nat) : Option VehicleTracker :=
  if ttl_cycles < 1 then none
  else some { states := [], ttl_cycles := ttl_cycles, cycle_counter := 0
              cycle_to_vehicles := [] }

/-- `VehicleTracker.update`: returns the previous state (first component)
and the tracker after the overwrite and the cycle-bucket touch. -/
def VehicleTracker.update (t : VehicleTracker) (vehicle_key cycle_id : String)
    (observed_at : Int) (lat lon : Option ℚ) (stop_code : String)
    (line_number : Option String) : Option VehicleState × VehicleTracker :=
  let previous := lookupAssoc t.states vehicle_key
  let st : VehicleState :=
    { vehicle_key := vehicle_key, last_cycle_id := cycle_id
      last_observed_at := observed_at, last_lat := lat, last_lon := lon
      last_stop_code := stop_code, last_line_number := line_number
      first_seen_cycle_id := match previous with
        | some p => p.first_seen_cycle_id
        | none => cycle_id
      cycles_seen := match previous with
        | some p => p.cycles_seen + 1
        | none => 1 }
  (previous,
   { t with states := insertAssoc t.states vehicle_key st
            cycle_to_vehicles := bucketAdd t.cycle_to_vehicles t.cycle_counter vehicle_key })

/-- The two shapes `VehicleTracker.detect_movement` returns: the bare
`{"is_new": True}` dict, or the full movement dict. -/
inductive MovementResult where
  | isNew
  | tracked (stop_changed : Bool) (distance_km : Option ℚ) (cycles_since_seen : Nat)
      (previous_stop_code : String) (previous_lat previous_lon : Option ℚ)

/-- `VehicleTracker.detect_movement`.  The helper `haversine_distance` is
imported from `roundabout.utils` but absent from the sources; modelled from
the spec, it is the great-circle distance between the two coordinate pairs
and is taken here as the explicit function parameter `hav`. -/
def VehicleTracker.detect_movement (hav : ℚ → ℚ → ℚ → ℚ → ℚ) (t : VehicleTracker)
    (vehicle_key current_stop_code : String) (current_lat current_lon : Option ℚ) :
    MovementResult :=
  match lookupAssoc t.states vehicle_key with
  | none => .isNew
  | some previous =>
    let distance_km :=
      match previous.last_lat, previous.last_lon, current_lat, current_lon with
      | some plat, some plon, some clat, some clon => some (hav plat plon clat clon)
      | _, _, _, _ => none
    .tracked (previous.last_stop_code != current_stop_code) distance_km 1
      previous.last_stop_code previous.last_lat previous.last_lon

/-- `vehicles_to_remove.update(keys)`: set union preserving first-insertion
order. -/
def setUnion (acc : List String) (ks : List String) : List String :=
  ks.foldl (fun a k => if k ∈ a then a else a ++ [k]) acc

/-- The union of the stale buckets' key sets (`vehicles_to_remove`). -/
def collectStaleKeys (staleBuckets : List (Nat × List String)) : List String :=
  staleBuckets.foldl (fun acc p => setUnion acc p.2) []

/-- The per-key `is_stale` re-scan of `cleanup`: the key appears in no
bucket newer than `stale`. -/
def kIsStale (buckets : List (Nat × List String)) (stale : Int) (k : String) : Bool :=
  buckets.all (fun p => !(decide (stale < (p.1 : Int)) && decide (k ∈ p.2)))

/-- The per-key eviction loop of `VehicleTracker.cleanup`: delete a key when
it is currently tracked and appears in no bucket newer than `stale`;
returns the new states and the removed count. -/
def removeStaleKeys (stale : Int) (buckets : List (Nat × List String)) :
    List (String × VehicleState) → List String → List (String × VehicleState) × Nat
  | states, [] => (states, 0)
  | states, k :: rest =>
    if (lookupAssoc states k).isSome && kIsStale buckets stale k then
      let r := removeStaleKeys stale buckets (eraseAssoc states k) rest
      (r.1, r.2 + 1)
    else
      removeStaleKeys stale buckets states rest

/-- `VehicleTracker.cleanup`: advance the cycle counter, evict keys whose
buckets are all at or before `counter - ttl`, drop the stale buckets;
returns the tracker and the evicted count. -/
def VehicleTracker.cleanup (t : VehicleTracker) : VehicleTracker × Nat :=
  let counter := t.cycle_counter + 1
  let stale : Int := (counter : Int) - (t.ttl_cycles : Int)
  if stale < 0 then ({ t with cycle_counter := counter }, 0)
  else
    let staleBuckets := t.cycle_to_vehicles.filter (fun p => decide ((p.1 : Int) ≤ stale))
    let r := removeStaleKeys stale t.cycle_to_vehicles t.states (collectStaleKeys staleBuckets)
    ({ states := r.1, ttl_cycles := t.ttl_cycles, cycle_counter := counter
       cycle_to_vehicles := t.cycle_to_vehicles.filter (fun p => decide (stale < (p.1 : Int))) },
     r.2)

/-- `VehicleTracker.get_vehicle_state`. -/
def VehicleTracker.get_vehicle_state (t : VehicleTracker) (vehicle_key : String) :
    Option VehicleState :=
  lookupAssoc t.states vehicle_key

/-- `VehicleTracker.get_vehicle_count`. -/
def VehicleTracker.get_vehicle_count (t : VehicleTracker) : Nat :=
  t.states.length

/-- One call against the tracker, for stating trace properties. -/
inductive TrackerOp where
  | update (vehicle_key cycle_id : String) (observed_at : Int) (lat lon : Option ℚ)
      (stop_code : String) (line_number : Option String)
  | cleanup

/-- Apply one call (dropping its return value). -/
def applyOp (t : VehicleTracker) : TrackerOp → VehicleTracker
  | .update k cid oa lat lon sc ln => (t.update k cid oa lat lon sc ln).2
  | .cleanup => t.cleanup.1

/-- Apply a call sequence left to right. -/
def applyOps (t : VehicleTracker) (ops : List TrackerOp) : VehicleTracker :=
  ops.foldl applyOp t

/-- Does this call update the given key? -/
def opUpdatesKey (op : TrackerOp) (k : String) : Bool :=
  match op with
  | .update k' _ _ _ _ _ _ => k' = k
  | .cleanup => false

/-- How many `cleanup()` calls a sequence contains. -/
def countCleanups (ops : List TrackerOp) : Nat :=
  (ops.filter (fun op => match op with | .cleanup => true | _ => false)).length

end Tracker

namespace Orchestrator

/-- What `future.result()` yields for one stop: a `FetchResult`, or an
unexpected exception escaping the worker. -/
inductive FutureOutcome where
  | ok (result : FetchResult)
  | exn (msg : String)

/-- The per-cycle accumulator of `orchestrator.collect_once`: the dedup set,
the four counters, and — in place of the JSONL/ClickHouse writers — the rows
routed to each destination. -/
structure CycleState where
  seen_vehicle_keys : List String
  predictions_count : Nat
  unique_vehicles : Nat
  errors : Nat
  responses : Nat
  prediction_rows : List PredictionRecord
  vehicle_rows : List VehicleRecord
  error_rows : List ErrorRecord

/-- The state on entry to the aggregation loop. -/
def initState : CycleState :=
  { seen_vehicle_keys := [], predictions_count := 0, unique_vehicles := 0
    errors := 0, responses := 0, prediction_rows := [], vehicle_rows := []
    error_rows := [] }

/-- Python truthiness of `result.error` (`if result.error:`). -/
def errTruthy : Option String → Bool
  | none => false
  | some e => e ≠ ""

/-- The body of `for vehicle in vehicles:` for one (dict) vehicle: build
and route the prediction row; on the first occurrence of the key this cycle
also mark it seen, route a vehicle row, and bump the unique counter. -/
def processOneVehicle (cycle_id : String) (stop : Stop) (result : FetchResult)
    (st : CycleState) (fields : List (String × Val)) : CycleState :=
  let prediction := Transformers.build_prediction_record stop result fields cycle_id
  let st' := { st with prediction_rows := st.prediction_rows ++ [prediction]
                       predictions_count := st.predictions_count + 1 }
  if prediction.vehicle_key ∈ st'.seen_vehicle_keys then st'
  else
    { st' with seen_vehicle_keys := st'.seen_vehicle_keys ++ [prediction.vehicle_key]
               vehicle_rows := st'.vehicle_rows ++
                 [Transformers.build_vehicle_record stop result prediction]
               unique_vehicles := st'.unique_vehicles + 1 }

/-- The `for vehicle in vehicles:` loop of `orchestrator.collect_once`.  A
non-dict element makes `vehicle.get` raise `AttributeError`, aborting the
cycle (`none`). -/
def processVehicles (cycle_id : String) (stop : Stop) (result : FetchResult) :
    CycleState → List Val → Option CycleState
  | st, [] => some st
  | st, v :: rest =>
    match v with
    | .vobj fields =>
      processVehicles cycle_id stop result (processOneVehicle cycle_id stop result st fields) rest
    | _ => none

/-- The `unexpected:<exc>` row the orchestrator writes inline when a worker
raises. -/
def unexpectedRecord (cycle_id : String) (now : Int) (stop : Stop) (msg : String) :
    ErrorRecord :=
  { observed_at := Utils.format_timestamp now, cycle_id := cycle_id
    stop_id := stop.stop_id, stop_code := stop.stop_code
    error := some ("unexpected:" ++ msg), http_status := none
    attempts := 0, duration_ms := 0 }

/-- `result.payload.get("vehicles") if isinstance(result.payload, dict)
else None`, with a missing or non-list field treated as zero vehicles. -/
def payloadVehicles (payload : Val) : List Val :=
  match payload with
  | .vobj fields =>
    match dictGet fields "vehicles" with
    | .vlist l => l
    | _ => []
  | _ => []

/-- Handling of one completed future in `orchestrator.collect_once`:
an escaped exception becomes an `unexpected:` error row; a `FetchResult`
counts as a response, then either routes an error row or iterates the
payload's vehicles. -/
def processStop (cycle_id : String) (now : Int) (st : CycleState)
    (input : Stop × FutureOutcome) : Option CycleState :=
  match input.2 with
  | .exn msg =>
    some { st with errors := st.errors + 1
                   error_rows := st.error_rows ++ [unexpectedRecord cycle_id now input.1 msg] }
  | .ok result =>
    let st1 := { st with responses := st.responses + 1 }
    if errTruthy result.error then
      some { st1 with errors := st1.errors + 1
                      error_rows := st1.error_rows ++
                        [Transformers.build_error_record input.1 result cycle_id] }
    else
      processVehicles cycle_id input.1 result st1 (payloadVehicles result.payload)

/-- The aggregation loop over completed futures, from a given state. -/
def runCycleFrom (cycle_id : String) (now : Int) (st : CycleState) :
    List (Stop × FutureOutcome) → Option CycleState
  | [] => some st
  | input :: rest =>
    match processStop cycle_id now st input with
    | none => none
    | some st' => runCycleFrom cycle_id now st' rest

/-- The data path of `orchestrator.collect_once` (identically
`collector.collect_once`): fold the completed futures — in whatever order
`as_completed` yields them — through the aggregation loop.  Wall-clock
readings are the parameters `cycle_id`/`now`; the writers are the row lists
inside the state. -/
def runCycle (cycle_id : String) (now : Int) (inputs : List (Stop × FutureOutcome)) :
    Option CycleState :=
  runCycleFrom cycle_id now initState inputs

/-- The counter fields of the `CycleSummary` row `collect_once` emits. -/
structure CycleSummary where
  cycle_id : String
  stops_total : Nat
  responses : Nat
  errors : Nat
  predictions : Nat
  unique_vehicles : Nat

/-- `orchestrator.collect_once`, summarized: the emitted `CycleSummary`
counters (`none` when the cycle aborts on a malformed vehicle entry). -/
def collect_once (cycle_id : String) (now : Int)
    (inputs : List (Stop × FutureOutcome)) : Option CycleSummary :=
  (runCycle cycle_id now inputs).map (fun st =>
    { cycle_id := cycle_id, stops_total := inputs.length, responses := st.responses
      errors := st.errors, predictions := st.predictions_count
      unique_vehicles := st.unique_vehicles })

end Orchestrator

/-! ## Specification-side definitions used to state the claims -/

/-- The hash fallback of the claimed VehicleKey, written as the spec words
it: `hash:` plus the first 16 hex characters of the SHA-256 digest of the
canonical JSON encoding — fields laid out sorted by name — of
`line_number`, `direction` and the 5-decimal-rounded coordinates, with the
querying stop's code added exactly when a rounded coordinate is absent. -/
def claimHashKey (line_number direction : Option String) (lat lon : Option ℚ)
    (stop_code : String) : String :=
  let latR := lat.map (fun q => pyRound q 5)
  let lonR := lon.map (fun q => pyRound q 5)
  let members :=
    [jsonMember ("direction", jOptStr direction), jsonMember ("lat", jOptNum latR),
     jsonMember ("line_number", jOptStr line_number), jsonMember ("lon", jOptNum lonR)] ++
    (if latR = none ∨ lonR = none then [jsonMember ("stop_code", JVal.jstr stop_code)] else [])
  "hash:" ++ (sha256hex ("\x7b" ++ String.intercalate ", " members ++ "\x7d")).take 16

/-- The VehicleKey exactly as claim C1 describes it: `garage:<id>` whenever
a garage id is present — presence being Python truthiness, so the empty
string counts as absent (claim C10) — and the sorted-canonical hash key
otherwise. -/
def claimVehicleKey (vehicle_id line_number direction : Option String)
    (lat lon : Option ℚ) (stop_code : String) : String :=
  match vehicle_id with
  | some vid =>
    if vid = "" then claimHashKey line_number direction lat lon stop_code
    else "garage:" ++ vid
  | none => claimHashKey line_number direction lat lon stop_code

/-- The two hash branches agree: rounding, the sorted field order
(`direction < lat < line_number < lon < stop_code` by name), the
`stop_code` condition, and the 16-character truncation all match. -/
theorem hashVehicleKey_eq_claim (line_number direction : Option String)
    (lat lon : Option ℚ) (stop_code : String) :
    Transformers.hashVehicleKey line_number direction lat lon stop_code =
      claimHashKey line_number direction lat lon stop_code := by
  cases lat <;> cases lon <;> rfl

/-- C1: for every input, `build_vehicle_key` returns `garage:<id>` whenever
a (non-empty) garage id is present, ignoring all other fields, and
otherwise `hash:` plus the first 16 hex characters of the SHA-256 digest of
the canonical name-sorted JSON encoding of line number, direction and the
5-decimal-rounded coordinates, with the querying stop's code added to the
hashed payload exactly when a rounded coordinate is absent. -/
theorem c1_vehicle_key_shape :
    ∀ (vehicle_id line_number direction : Option String) (lat lon : Option ℚ)
      (stop_code : String),
      Transformers.build_vehicle_key vehicle_id line_number direction lat lon stop_code =
        claimVehicleKey vehicle_id line_number direction lat lon stop_code := by
  intro vehicle_id line_number direction lat lon stop_code
  cases vehicle_id with
  | none => exact hashVehicleKey_eq_claim line_number direction lat lon stop_code
  | some vid =>
    by_cases h : vid = "" <;>
      simp [Transformers.build_vehicle_key, claimVehicleKey, h,
        hashVehicleKey_eq_claim]

/-- C9: the private pipeline in `collector.py` is extensionally equal to
the public one in `transformers.py`: key derivation, normalization, and the
three record builders produce identical values on every input. -/
theorem c9_collector_matches_transformers :
    (∀ (vehicle_id line_number direction : Option String) (lat lon : Option ℚ)
       (stop_code : String),
       Collector.build_vehicle_key vehicle_id line_number direction lat lon stop_code =
         Transformers.build_vehicle_key vehicle_id line_number direction lat lon stop_code)
  ∧ (∀ vehicle, Collector.normalize_vehicle vehicle = Transformers.normalize_vehicle vehicle)
  ∧ (∀ stop result vehicle cycle_id,
       Collector.prediction_record stop result vehicle cycle_id =
         Transformers.build_prediction_record stop result vehicle cycle_id)
  ∧ (∀ stop result prediction,
       Collector.vehicle_record stop result prediction =
         Transformers.build_vehicle_record stop result prediction)
  ∧ (∀ stop result cycle_id,
       Collector.error_record stop result cycle_id =
         Transformers.build_error_record stop result cycle_id) :=
  ⟨fun _ _ _ _ _ _ => rfl, fun _ => rfl, fun _ _ _ _ => rfl,
   fun _ _ _ => rfl, fun _ _ _ => rfl⟩

/-- C10: a present-but-empty garage id is treated exactly like an absent
one — the hash fallback is used and no `garage:` key is produced; only a
non-empty garage id yields `garage:<id>`. -/
theorem c10_empty_garage_id_is_absent :
    (∀ (line_number direction : Option String) (lat lon : Option ℚ) (stop_code : String),
       Transformers.build_vehicle_key (some "") line_number direction lat lon stop_code =
         Transformers.build_vehicle_key none line_number direction lat lon stop_code)
  ∧ (∀ (line_number direction : Option String) (lat lon : Option ℚ) (stop_code : String),
       ∃ digest,
         Transformers.build_vehicle_key (some "") line_number direction lat lon stop_code =
           "hash:" ++ digest)
  ∧ (∀ (vehicle_id : String) (line_number direction : Option String) (lat lon : Option ℚ)
       (stop_code : String), vehicle_id ≠ "" →
       Transformers.build_vehicle_key (some vehicle_id) line_number direction lat lon stop_code =
         "garage:" ++ vehicle_id) := by
  refine ⟨fun _ _ _ _ _ => rfl, ?_, ?_⟩
  · intro line_number direction lat lon stop_code
    exact ⟨_, rfl⟩
  · intro vehicle_id line_number direction lat lon stop_code h
    simp [Transformers.build_vehicle_key, h]

/-- Witness for C10 at a concrete input: `"P1"` is non-empty, so the key is
`garage:P1`. -/
theorem c10_witness :
    Transformers.build_vehicle_key (some "P1") none none none none "1001" = "garage:" ++ "P1" :=
  c10_empty_garage_id_is_absent.2.2 "P1" none none none none "1001" (by decide)

/-- C8 fails as stated: at rate `5/4` (the exact binary double `1.25`) the
default capacity is `int(1.25 * 2) = 2` — and `2` is not `2 × 1.25 = 2.5`. -/
theorem c8_counterexample :
    RateLimiter.init (5/4 : ℚ) none = some ⟨5/4, 2, 2⟩ ∧ ((2 : ℚ) ≠ 2 * (5/4 : ℚ)) := by
  constructor
  · simp [RateLimiter.init, truncRat]
    norm_num
  · norm_num

/-- `truncRat` is the identity on integral rationals. -/
theorem truncRat_of_den_one (q : ℚ) (h : q.den = 1) : truncRat q = q.num := by
  unfold truncRat
  rw [h]
  split
  · omega
  · omega

/-- C8 amended: with no explicit capacity the bucket capacity is
`int(2 × rate)` — `2 × rate` truncated toward zero — and the initial token
count equals the capacity; the capacity equals `2 × rate` exactly when
`2 × rate` is integral. -/
theorem c8_default_capacity (r : ℚ) (l : RateLimiter.TokenBucketRateLimiter)
    (h : RateLimiter.init r none = some l) :
    l.bucket_capacity = truncRat (r * 2) ∧ l.tokens = (l.bucket_capacity : ℚ) ∧
      ((r * 2).den = 1 → (l.bucket_capacity : ℚ) = 2 * r) := by
  unfold RateLimiter.init at h
  split at h
  · exact absurd h (by simp)
  · simp only [Option.some.injEq] at h
    subst h
    refine ⟨rfl, rfl, fun hden => ?_⟩
    rw [truncRat_of_den_one _ hden]
    have := Rat.num_div_den (r * 2)
    rw [hden] at this
    push_cast at this
    rw [div_one] at this
    rw [this, mul_comm]

/-- Witness for C8 amended at rate 3: capacity 6, tokens 6, and `6 = 2 × 3`. -/
theorem c8_default_capacity_witness :
    (RateLimiter.TokenBucketRateLimiter.bucket_capacity ⟨3, 6, 6⟩ = truncRat ((3 : ℚ) * 2)) ∧
      (RateLimiter.TokenBucketRateLimiter.tokens ⟨3, 6, 6⟩ =
        (RateLimiter.TokenBucketRateLimiter.bucket_capacity ⟨3, 6, 6⟩ : ℚ)) ∧
      (((3 : ℚ) * 2).den = 1 → (RateLimiter.TokenBucketRateLimiter.bucket_capacity ⟨3, 6, 6⟩ : ℚ) = 2 * 3) :=
  c8_default_capacity 3 ⟨3, 6, 6⟩ (by simp [RateLimiter.init, truncRat]; norm_num)

/-- A flush always leaves the buffer empty (the `finally:` clears it on the
success, failure and already-empty paths alike). -/
theorem flush_fst_buffer {α : Type} (sink : List α → Except String Unit)
    (w : ClickHouse.BatchWriter α) : (ClickHouse.BatchWriter.flush sink w).1.buffer = [] := by
  unfold ClickHouse.BatchWriter.flush
  split
  · next hemp => simpa [List.isEmpty_iff] using hemp
  · split <;> rfl

/-- A flush never changes the batch size. -/
theorem flush_fst_batch_size {α : Type} (sink : List α → Except String Unit)
    (w : ClickHouse.BatchWriter α) :
    (ClickHouse.BatchWriter.flush sink w).1.batch_size = w.batch_size := by
  unfold ClickHouse.BatchWriter.flush
  split
  · rfl
  · split <;> rfl

/-- C5: the batch writer appends on `write` and flushes exactly when the
buffer length reaches the batch size (clamped to at least 1 at
construction); `flush` on an empty buffer is a no-op that does not call the
sink; a sink failure is not propagated — flush still returns, records the
error, and the buffer is empty afterwards regardless of success or failure;
`close` performs a final flush; and `write` keeps the buffer strictly below
the batch size. -/
theorem c5_batch_writer_policy :
    (∀ (α : Type) (bs : Int),
       1 ≤ (ClickHouse.BatchWriter.init α bs).batch_size ∧
         (ClickHouse.BatchWriter.init α bs).buffer = [])
  ∧ (∀ (α : Type) (sink : List α → Except String Unit) (w : ClickHouse.BatchWriter α) (r : α),
       w.buffer.length + 1 < w.batch_size →
         ClickHouse.BatchWriter.write sink w r = ({ w with buffer := w.buffer ++ [r] }, none))
  ∧ (∀ (α : Type) (sink : List α → Except String Unit) (w : ClickHouse.BatchWriter α) (r : α),
       w.batch_size ≤ w.buffer.length + 1 →
         ClickHouse.BatchWriter.write sink w r =
           ClickHouse.BatchWriter.flush sink { w with buffer := w.buffer ++ [r] })
  ∧ (∀ (α : Type) (sink : List α → Except String Unit) (w : ClickHouse.BatchWriter α),
       w.buffer = [] → ClickHouse.BatchWriter.flush sink w = (w, none))
  ∧ (∀ (α : Type) (sink : List α → Except String Unit) (w : ClickHouse.BatchWriter α),
       (ClickHouse.BatchWriter.flush sink w).1.buffer = [])
  ∧ (∀ (α : Type) (sink : List α → Except String Unit) (w : ClickHouse.BatchWriter α) (e : String),
       w.buffer ≠ [] → sink w.buffer = .error e →
         ClickHouse.BatchWriter.flush sink w = ({ w with buffer := [] }, some (w.buffer, some e)))
  ∧ (∀ (α : Type) (sink : List α → Except String Unit) (w : ClickHouse.BatchWriter α),
       ClickHouse.BatchWriter.close sink w = ClickHouse.BatchWriter.flush sink w)
  ∧ (∀ (α : Type) (sink : List α → Except String Unit) (w : ClickHouse.BatchWriter α) (r : α),
       1 ≤ w.batch_size →
         (ClickHouse.BatchWriter.write sink w r).1.batch_size = w.batch_size ∧
           (ClickHouse.BatchWriter.write sink w r).1.buffer.length < w.batch_size) := by
  refine ⟨?_, ?_, ?_, ?_, ?_, ?_, ?_, ?_⟩
  · intro α bs
    constructor
    · show 1 ≤ (max 1 bs).toNat
      omega
    · rfl
  · intro α sink w r h
    unfold ClickHouse.BatchWriter.write
    rw [if_neg (by simp only [List.length_append, List.length_cons, List.length_nil]; omega)]
  · intro α sink w r h
    unfold ClickHouse.BatchWriter.write
    rw [if_pos (by simp only [List.length_append, List.length_cons, List.length_nil]; omega)]
  · intro α sink w h
    unfold ClickHouse.BatchWriter.flush
    rw [if_pos (by simp [h])]
  · intro α sink w
    exact flush_fst_buffer sink w
  · intro α sink w e hne hsink
    unfold ClickHouse.BatchWriter.flush
    rw [if_neg (by simp [hne]), hsink]
  · intro α sink w
    rfl
  · intro α sink w r hbs
    unfold ClickHouse.BatchWriter.write
    dsimp only
    split
    · refine ⟨flush_fst_batch_size sink _, ?_⟩
      rw [flush_fst_buffer sink _]
      simpa using hbs
    · next hlt =>
      refine ⟨rfl, ?_⟩
      simp only [List.length_append, List.length_cons, List.length_nil] at hlt ⊢
      omega

/-- Witness for C5 at concrete inputs: a writer with batch size 2 buffers
the first record without calling the sink; a failing sink leaves a flushed
writer with an empty buffer and a recorded error; close equals flush. -/
theorem c5_witness :
    (ClickHouse.BatchWriter.write (fun _ => Except.error "down")
       (⟨2, []⟩ : ClickHouse.BatchWriter Nat) 7 = (⟨2, [7]⟩, none))
  ∧ (ClickHouse.BatchWriter.write (fun _ => Except.error "down")
       (⟨2, [7]⟩ : ClickHouse.BatchWriter Nat) 8 =
       ClickHouse.BatchWriter.flush (fun _ => Except.error "down") ⟨2, [7, 8]⟩)
  ∧ (ClickHouse.BatchWriter.flush (fun _ => Except.error "down")
       (⟨2, []⟩ : ClickHouse.BatchWriter Nat) = (⟨2, []⟩, none))
  ∧ (ClickHouse.BatchWriter.flush (fun _ => Except.error "down")
       (⟨2, [7, 8]⟩ : ClickHouse.BatchWriter Nat) = (⟨2, []⟩, some ([7, 8], some "down")))
  ∧ ((ClickHouse.BatchWriter.write (fun _ => Except.error "down")
       (⟨2, [7]⟩ : ClickHouse.BatchWriter Nat) 8).1.buffer.length < 2) :=
  ⟨c5_batch_writer_policy.2.1 Nat _ ⟨2, []⟩ 7 (by decide),
   c5_batch_writer_policy.2.2.1 Nat _ ⟨2, [7]⟩ 8 (by decide),
   c5_batch_writer_policy.2.2.2.1 Nat _ ⟨2, []⟩ rfl,
   c5_batch_writer_policy.2.2.2.2.2.1 Nat _ ⟨2, [7, 8]⟩ "down" (by decide) rfl,
   (c5_batch_writer_policy.2.2.2.2.2.2.2 Nat _ ⟨2, [7]⟩ 8 (by decide)).2⟩

/-- Looking a key up right after inserting it yields the inserted value. -/
theorem lookupAssoc_insertAssoc_self (l : List (String × Tracker.VehicleState))
    (k : String) (v : Tracker.VehicleState) :
    Tracker.lookupAssoc (Tracker.insertAssoc l k v) k = some v := by
  induction l with
  | nil => simp [Tracker.insertAssoc, Tracker.lookupAssoc]
  | cons p rest ih =>
    by_cases h : p.1 = k
    · simp [Tracker.insertAssoc, Tracker.lookupAssoc, h]
    · simp [Tracker.insertAssoc, Tracker.lookupAssoc, h, ih]

/-- C6: `detect_movement` on an untracked key reports `is_new` and nothing
else; on a tracked key it reports `is_new = False`, whether the stop code
changed relative to the previous observation, the great-circle distance
exactly when both observations carry both coordinates, and the previous
stop code and coordinates. -/
theorem c6_detect_movement :
    (∀ (hav : ℚ → ℚ → ℚ → ℚ → ℚ) (t : Tracker.VehicleTracker) (key stop : String)
       (lat lon : Option ℚ),
       t.get_vehicle_state key = none →
         Tracker.VehicleTracker.detect_movement hav t key stop lat lon =
           Tracker.MovementResult.isNew)
  ∧ (∀ (hav : ℚ → ℚ → ℚ → ℚ → ℚ) (t : Tracker.VehicleTracker)
       (key cycle_id : String) (observed_at : Int) (ulat ulon : Option ℚ)
       (ustop : String) (uline : Option String) (cstop : String) (clat clon : Option ℚ),
       Tracker.VehicleTracker.detect_movement hav
           (t.update key cycle_id observed_at ulat ulon ustop uline).2 key cstop clat clon =
         Tracker.MovementResult.tracked (ustop != cstop)
           (match ulat, ulon, clat, clon with
            | some plat, some plon, some curlat, some curlon =>
              some (hav plat plon curlat curlon)
            | _, _, _, _ => none)
           1 ustop ulat ulon) := by
  constructor
  · intro hav t key stop lat lon h
    unfold Tracker.VehicleTracker.get_vehicle_state at h
    unfold Tracker.VehicleTracker.detect_movement
    rw [h]
  · intro hav t key cycle_id observed_at ulat ulon ustop uline cstop clat clon
    unfold Tracker.VehicleTracker.detect_movement Tracker.VehicleTracker.update
    rw [lookupAssoc_insertAssoc_self]

/-- Inserting under a different key leaves a lookup unchanged. -/
theorem lookupAssoc_insertAssoc_ne (l : List (String × Tracker.VehicleState))
    (k' k : String) (v : Tracker.VehicleState) (h : k' ≠ k) :
    Tracker.lookupAssoc (Tracker.insertAssoc l k' v) k = Tracker.lookupAssoc l k := by
  induction l with
  | nil => simp [Tracker.insertAssoc, Tracker.lookupAssoc, h]
  | cons p rest ih =>
    by_cases hp : p.1 = k'
    · simp [Tracker.insertAssoc, Tracker.lookupAssoc, hp, h]
    · simp [Tracker.insertAssoc, Tracker.lookupAssoc, hp, ih]

/-- Erasing a different key leaves a lookup unchanged. -/
theorem lookupAssoc_eraseAssoc_ne (l : List (String × Tracker.VehicleState))
    (k' k : String) (h : k' ≠ k) :
    Tracker.lookupAssoc (Tracker.eraseAssoc l k') k = Tracker.lookupAssoc l k := by
  induction l with
  | nil => simp [Tracker.eraseAssoc, Tracker.lookupAssoc]
  | cons p rest ih =>
    by_cases hp : p.1 = k'
    · rw [show Tracker.eraseAssoc (p :: rest) k' = rest by simp [Tracker.eraseAssoc, hp]]
      rw [show Tracker.lookupAssoc (p :: rest) k = Tracker.lookupAssoc rest k by
        simp [Tracker.lookupAssoc, hp ▸ h]]
    · simp [Tracker.eraseAssoc, Tracker.lookupAssoc, hp, ih]

/-- An absent key stays absent: a lookup that misses keeps missing after
any erase. -/
theorem lookupAssoc_eraseAssoc_none (l : List (String × Tracker.VehicleState))
    (k' k : String) (h : Tracker.lookupAssoc l k = none) :
    Tracker.lookupAssoc (Tracker.eraseAssoc l k') k = none := by
  induction l with
  | nil => simpa [Tracker.eraseAssoc] using h
  | cons p rest ih =>
    by_cases hp1 : p.1 = k
    · simp [Tracker.lookupAssoc, hp1] at h
    · have hrest : Tracker.lookupAssoc rest k = none := by
        simpa [Tracker.lookupAssoc, hp1] using h
      by_cases hp2 : p.1 = k'
      · simpa [Tracker.eraseAssoc, hp2] using hrest
      · simp [Tracker.eraseAssoc, hp2, Tracker.lookupAssoc, hp1, ih hrest]

/-- A key outside the key list is never found. -/
theorem lookupAssoc_eq_none_of_not_mem (l : List (String × Tracker.VehicleState))
    (k : String) (h : ¬k ∈ l.map Prod.fst) :
    Tracker.lookupAssoc l k = none := by
  induction l with
  | nil => rfl
  | cons p rest ih =>
    simp only [List.map_cons, List.mem_cons] at h
    push_neg at h
    have hne : ¬p.1 = k := fun hp => h.1 hp.symm
    simp [Tracker.lookupAssoc, hne, ih h.2]

/-- With no duplicate keys, erasing a key removes it entirely. -/
theorem lookupAssoc_eraseAssoc_self (l : List (String × Tracker.VehicleState))
    (k : String) (hnd : (l.map Prod.fst).Nodup) :
    Tracker.lookupAssoc (Tracker.eraseAssoc l k) k = none := by
  induction l with
  | nil => rfl
  | cons p rest ih =>
    simp only [List.map_cons, List.nodup_cons] at hnd
    by_cases hp : p.1 = k
    · rw [show Tracker.eraseAssoc (p :: rest) k = rest by simp [Tracker.eraseAssoc, hp]]
      exact lookupAssoc_eq_none_of_not_mem rest k (hp ▸ hnd.1)
    · simp [Tracker.eraseAssoc, hp, Tracker.lookupAssoc, ih hnd.2]

/-- The keys after an insert are the old keys, possibly with the new key. -/
theorem mem_map_fst_insertAssoc (l : List (String × Tracker.VehicleState))
    (k : String) (v : Tracker.VehicleState) (x : String) :
    x ∈ (Tracker.insertAssoc l k v).map Prod.fst ↔ x = k ∨ x ∈ l.map Prod.fst := by
  induction l with
  | nil => simp [Tracker.insertAssoc]
  | cons p rest ih =>
    by_cases hp : p.1 = k
    · rw [show Tracker.insertAssoc (p :: rest) k v = (k, v) :: rest by
        simp [Tracker.insertAssoc, hp]]
      simp only [List.map_cons, List.mem_cons]
      rw [hp]
      tauto
    · rw [show Tracker.insertAssoc (p :: rest) k v = p :: Tracker.insertAssoc rest k v by
        simp [Tracker.insertAssoc, hp]]
      simp only [List.map_cons, List.mem_cons, ih]
      tauto

/-- Keys after an erase were keys before. -/
theorem mem_map_fst_eraseAssoc (l : List (String × Tracker.VehicleState))
    (k x : String) (h : x ∈ (Tracker.eraseAssoc l k).map Prod.fst) :
    x ∈ l.map Prod.fst := by
  induction l with
  | nil => simpa [Tracker.eraseAssoc] using h
  | cons p rest ih =>
    by_cases hp : p.1 = k
    · rw [show Tracker.eraseAssoc (p :: rest) k = rest by simp [Tracker.eraseAssoc, hp]] at h
      simp only [List.map_cons, List.mem_cons]
      exact Or.inr h
    · simp only [Tracker.eraseAssoc, if_neg hp, List.map_cons, List.mem_cons] at h ⊢
      rcases h with h | h
      · exact Or.inl h
      · exact Or.inr (ih h)

/-- Inserting keeps the key list duplicate-free. -/
theorem nodup_insertAssoc (l : List (String × Tracker.VehicleState)) (k : String)
    (v : Tracker.VehicleState) (hnd : (l.map Prod.fst).Nodup) :
    ((Tracker.insertAssoc l k v).map Prod.fst).Nodup := by
  induction l with
  | nil => simp [Tracker.insertAssoc]
  | cons p rest ih =>
    simp only [List.map_cons, List.nodup_cons] at hnd
    by_cases hp : p.1 = k
    · rw [show Tracker.insertAssoc (p :: rest) k v = (k, v) :: rest by
        simp [Tracker.insertAssoc, hp]]
      simp only [List.map_cons, List.nodup_cons]
      exact ⟨hp ▸ hnd.1, hnd.2⟩
    · rw [show Tracker.insertAssoc (p :: rest) k v = p :: Tracker.insertAssoc rest k v by
        simp [Tracker.insertAssoc, hp]]
      simp only [List.map_cons, List.nodup_cons]
      refine ⟨?_, ih hnd.2⟩
      intro hmem
      rcases (mem_map_fst_insertAssoc rest k v p.1).mp hmem with h1 | h1
      · exact hp h1
      · exact hnd.1 h1

/-- Erasing keeps the key list duplicate-free. -/
theorem nodup_eraseAssoc (l : List (String × Tracker.VehicleState)) (k : String)
    (hnd : (l.map Prod.fst).Nodup) :
    ((Tracker.eraseAssoc l k).map Prod.fst).Nodup := by
  induction l with
  | nil => simp [Tracker.eraseAssoc]
  | cons p rest ih =>
    simp only [List.map_cons, List.nodup_cons] at hnd
    by_cases hp : p.1 = k
    · simpa [Tracker.eraseAssoc, hp] using hnd.2
    · simp only [Tracker.eraseAssoc, if_neg hp, List.map_cons, List.nodup_cons]
      refine ⟨fun hmem => hnd.1 (mem_map_fst_eraseAssoc rest k p.1 hmem), ih hnd.2⟩

/-- A key found in a bucket after a touch was either just added or was
already there, in a bucket of the same index. -/
theorem bucketAdd_mem_elim (m : List (Nat × List String)) (c0 : Nat) (k0 : String) :
    ∀ p ∈ Tracker.bucketAdd m c0 k0, ∀ k ∈ p.2,
      (p.1 = c0 ∧ k = k0) ∨ ∃ q ∈ m, q.1 = p.1 ∧ k ∈ q.2 := by
  induction m with
  | nil =>
    intro p hp k hk
    simp only [Tracker.bucketAdd, List.mem_singleton] at hp
    subst hp
    simp only [List.mem_singleton] at hk
    exact Or.inl ⟨rfl, hk⟩
  | cons q rest ih =>
    intro p hp k hk
    by_cases hq : q.1 = c0
    · rw [show Tracker.bucketAdd (q :: rest) c0 k0 =
          (q.1, if k0 ∈ q.2 then q.2 else q.2 ++ [k0]) :: rest by
        simp [Tracker.bucketAdd, hq]] at hp
      rcases List.mem_cons.mp hp with rfl | hp
      · simp only at hk
        by_cases hk0 : k0 ∈ q.2
        · rw [if_pos hk0] at hk
          exact Or.inr ⟨q, List.mem_cons_self q rest, rfl, hk⟩
        · rw [if_neg hk0] at hk
          rcases List.mem_append.mp hk with hk | hk
          · exact Or.inr ⟨q, List.mem_cons_self q rest, rfl, hk⟩
          · exact Or.inl ⟨hq, List.mem_singleton.mp hk⟩
      · exact Or.inr ⟨p, List.mem_cons_of_mem q hp, rfl, hk⟩
    · rw [show Tracker.bucketAdd (q :: rest) c0 k0 = q :: Tracker.bucketAdd rest c0 k0 by
        simp [Tracker.bucketAdd, hq]] at hp
      rcases List.mem_cons.mp hp with rfl | hp
      · exact Or.inr ⟨p, List.mem_cons_self p rest, rfl, hk⟩
      · rcases ih p hp k hk with h | ⟨q', hq', hh⟩
        · exact Or.inl h
        · exact Or.inr ⟨q', List.mem_cons_of_mem q hq', hh⟩

/-- A key already in a bucket is still there after a touch. -/
theorem bucketAdd_mem_intro (m : List (Nat × List String)) (c0 : Nat) (k0 : String)
    (q : Nat × List String) (hq : q ∈ m) (k : String) (hk : k ∈ q.2) :
    ∃ p ∈ Tracker.bucketAdd m c0 k0, p.1 = q.1 ∧ k ∈ p.2 := by
  induction m with
  | nil => cases hq
  | cons r rest ih =>
    by_cases hr : r.1 = c0
    · rw [show Tracker.bucketAdd (r :: rest) c0 k0 =
          (r.1, if k0 ∈ r.2 then r.2 else r.2 ++ [k0]) :: rest by
        simp [Tracker.bucketAdd, hr]]
      rcases List.mem_cons.mp hq with rfl | hq
      · refine ⟨(q.1, if k0 ∈ q.2 then q.2 else q.2 ++ [k0]),
          List.mem_cons_self _ _, rfl, ?_⟩
        by_cases hk0 : k0 ∈ q.2
        · simpa [hk0] using hk
        · simp only [if_neg hk0, List.mem_append]
          exact Or.inl hk
      · exact ⟨q, List.mem_cons_of_mem _ hq, rfl, hk⟩
    · rw [show Tracker.bucketAdd (r :: rest) c0 k0 = r :: Tracker.bucketAdd rest c0 k0 by
        simp [Tracker.bucketAdd, hr]]
      rcases List.mem_cons.mp hq with rfl | hq
      · exact ⟨q, List.mem_cons_self _ _, rfl, hk⟩
      · obtain ⟨p, hp, hh⟩ := ih hq
        exact ⟨p, List.mem_cons_of_mem _ hp, hh⟩

/-- The touched key is in the bucket of the current cycle after a touch. -/
theorem bucketAdd_self_mem (m : List (Nat × List String)) (c0 : Nat) (k0 : String) :
    ∃ p ∈ Tracker.bucketAdd m c0 k0, p.1 = c0 ∧ k0 ∈ p.2 := by
  induction m with
  | nil => exact ⟨(c0, [k0]), List.mem_singleton.mpr rfl, rfl, List.mem_singleton.mpr rfl⟩
  | cons r rest ih =>
    by_cases hr : r.1 = c0
    · refine ⟨(r.1, if k0 ∈ r.2 then r.2 else r.2 ++ [k0]), ?_, hr, ?_⟩
      · rw [show Tracker.bucketAdd (r :: rest) c0 k0 =
            (r.1, if k0 ∈ r.2 then r.2 else r.2 ++ [k0]) :: rest by
          simp [Tracker.bucketAdd, hr]]
        exact List.mem_cons_self _ _
      · by_cases hk0 : k0 ∈ r.2
        · simpa [hk0]
        · simp [hk0]
    · obtain ⟨p, hp, hh⟩ := ih
      refine ⟨p, ?_, hh⟩
      rw [show Tracker.bucketAdd (r :: rest) c0 k0 = r :: Tracker.bucketAdd rest c0 k0 by
        simp [Tracker.bucketAdd, hr]]
      exact List.mem_cons_of_mem _ hp

/-- Bucket indices after a touch: the touched cycle or an existing index. -/
theorem bucketAdd_idx (m : List (Nat × List String)) (c0 : Nat) (k0 : String) :
    ∀ p ∈ Tracker.bucketAdd m c0 k0, p.1 = c0 ∨ ∃ q ∈ m, q.1 = p.1 := by
  induction m with
  | nil =>
    intro p hp
    simp only [Tracker.bucketAdd, List.mem_singleton] at hp
    subst hp
    exact Or.inl rfl
  | cons r rest ih =>
    intro p hp
    by_cases hr : r.1 = c0
    · rw [show Tracker.bucketAdd (r :: rest) c0 k0 =
          (r.1, if k0 ∈ r.2 then r.2 else r.2 ++ [k0]) :: rest by
        simp [Tracker.bucketAdd, hr]] at hp
      rcases List.mem_cons.mp hp with rfl | hp
      · exact Or.inl hr
      · exact Or.inr ⟨p, List.mem_cons_of_mem _ hp, rfl⟩
    · rw [show Tracker.bucketAdd (r :: rest) c0 k0 = r :: Tracker.bucketAdd rest c0 k0 by
        simp [Tracker.bucketAdd, hr]] at hp
      rcases List.mem_cons.mp hp with rfl | hp
      · exact Or.inr ⟨p, List.mem_cons_self _ _, rfl⟩
      · rcases ih p hp with h | ⟨q, hq, hh⟩
        · exact Or.inl h
        · exact Or.inr ⟨q, List.mem_cons_of_mem _ hq, hh⟩

/-- Membership in a set union. -/
theorem mem_setUnion (ks : List String) :
    ∀ (acc : List String) (k : String), k ∈ Tracker.setUnion acc ks ↔ k ∈ acc ∨ k ∈ ks := by
  induction ks with
  | nil => intro acc k; simp [Tracker.setUnion]
  | cons x xs ih =>
    intro acc k
    rw [show Tracker.setUnion acc (x :: xs) =
        Tracker.setUnion (if x ∈ acc then acc else acc ++ [x]) xs from rfl]
    rw [ih]
    by_cases hx : x ∈ acc
    · simp only [if_pos hx, List.mem_cons]
      constructor
      · rintro (h | h)
        · exact Or.inl h
        · exact Or.inr (Or.inr h)
      · rintro (h | h | h)
        · exact Or.inl h
        · exact Or.inl (h ▸ hx)
        · exact Or.inr h
    · simp only [if_neg hx, List.mem_append, List.mem_singleton, List.mem_cons]
      tauto

/-- Membership in the union of the stale buckets' key sets. -/
theorem mem_collectStaleKeys (sb : List (Nat × List String)) (k : String) :
    k ∈ Tracker.collectStaleKeys sb ↔ ∃ p ∈ sb, k ∈ p.2 := by
  have haux : ∀ (l : List (Nat × List String)) (acc : List String),
      k ∈ l.foldl (fun acc p => Tracker.setUnion acc p.2) acc ↔
        k ∈ acc ∨ ∃ p ∈ l, k ∈ p.2 := by
    intro l
    induction l with
    | nil => intro acc; simp
    | cons p rest ih =>
      intro acc
      rw [List.foldl_cons, ih, mem_setUnion]
      simp only [List.mem_cons]
      constructor
      · rintro ((h | h) | ⟨q, hq, hh⟩)
        · exact Or.inl h
        · exact Or.inr ⟨p, Or.inl rfl, h⟩
        · exact Or.inr ⟨q, Or.inr hq, hh⟩
      · rintro (h | ⟨q, hq | hq, hh⟩)
        · exact Or.inl (Or.inl h)
        · exact Or.inl (Or.inr (hq ▸ hh))
        · exact Or.inr ⟨q, hq, hh⟩
  rw [show Tracker.collectStaleKeys sb =
      sb.foldl (fun acc p => Tracker.setUnion acc p.2) [] from rfl]
  rw [haux]
  simp

/-- A missing key is still missing after the eviction loop. -/
theorem removeStaleKeys_lookup_none (stale : Int) (buckets : List (Nat × List String))
    (k : String) :
    ∀ (ks : List String) (states : List (String × Tracker.VehicleState)),
      Tracker.lookupAssoc states k = none →
      Tracker.lookupAssoc (Tracker.removeStaleKeys stale buckets states ks).1 k = none := by
  intro ks
  induction ks with
  | nil => intro states h; exact h
  | cons k' rest ih =>
    intro states h
    simp only [Tracker.removeStaleKeys]
    split
    · exact ih _ (lookupAssoc_eraseAssoc_none _ _ _ h)
    · exact ih _ h

/-- The eviction loop keeps the key list duplicate-free. -/
theorem removeStaleKeys_nodup (stale : Int) (buckets : List (Nat × List String)) :
    ∀ (ks : List String) (states : List (String × Tracker.VehicleState)),
      (states.map Prod.fst).Nodup →
      ((Tracker.removeStaleKeys stale buckets states ks).1.map Prod.fst).Nodup := by
  intro ks
  induction ks with
  | nil => intro states h; exact h
  | cons k' rest ih =>
    intro states h
    simp only [Tracker.removeStaleKeys]
    split
    · exact ih _ (nodup_eraseAssoc _ _ h)
    · exact ih _ h

/-- What the eviction loop does to one key's lookup: removed exactly when
listed for removal and stale, untouched otherwise. -/
theorem removeStaleKeys_lookup (stale : Int) (buckets : List (Nat × List String))
    (k : String) :
    ∀ (ks : List String) (states : List (String × Tracker.VehicleState)),
      (states.map Prod.fst).Nodup →
      Tracker.lookupAssoc (Tracker.removeStaleKeys stale buckets states ks).1 k =
        if k ∈ ks ∧ Tracker.kIsStale buckets stale k = true then none
        else Tracker.lookupAssoc states k := by
  intro ks
  induction ks with
  | nil =>
    intro states _
    simp [Tracker.removeStaleKeys]
  | cons k' rest ih =>
    intro states hnd
    simp only [Tracker.removeStaleKeys]
    by_cases hk' : k' = k
    · subst hk'
      by_cases hstale : Tracker.kIsStale buckets stale k' = true
      · rw [show Tracker.lookupAssoc states k' = Tracker.lookupAssoc states k' from rfl]
        by_cases halive : (Tracker.lookupAssoc states k').isSome
        · rw [if_pos (by simp [halive, hstale])]
          have : Tracker.lookupAssoc
              (Tracker.removeStaleKeys stale buckets (Tracker.eraseAssoc states k') rest).1 k' =
              none :=
            removeStaleKeys_lookup_none stale buckets k' rest _
              (lookupAssoc_eraseAssoc_self states k' hnd)
          rw [this]
          rw [if_pos ⟨List.mem_cons_self _ _, hstale⟩]
        · rw [if_neg (by simp [halive])]
          rw [ih _ hnd]
          have hnone : Tracker.lookupAssoc states k' = none := by
            cases hh : Tracker.lookupAssoc states k' with
            | none => rfl
            | some v => rw [hh] at halive; simp at halive
          split
          · rw [if_pos ⟨List.mem_cons_self _ _, hstale⟩]
          · rw [if_pos ⟨List.mem_cons_self _ _, hstale⟩]
            exact hnone
      · rw [if_neg (by simp [hstale])]
        rw [ih _ hnd]
        have hcond : (k' ∈ k' :: rest ∧ Tracker.kIsStale buckets stale k' = true) ↔
            (k' ∈ rest ∧ Tracker.kIsStale buckets stale k' = true) := by
          constructor
          · rintro ⟨_, hs⟩; exact absurd hs hstale
          · rintro ⟨hm, hs⟩; exact ⟨List.mem_cons_of_mem _ hm, hs⟩
        rw [if_congr hcond rfl rfl]
    · split
      · rw [ih _ (nodup_eraseAssoc _ _ hnd)]
        rw [lookupAssoc_eraseAssoc_ne _ _ _ hk']
        have hcond : (k ∈ rest ∧ Tracker.kIsStale buckets stale k = true) ↔
            (k ∈ k' :: rest ∧ Tracker.kIsStale buckets stale k = true) := by
          constructor
          · rintro ⟨hm, hs⟩; exact ⟨List.mem_cons_of_mem _ hm, hs⟩
          · rintro ⟨hm, hs⟩
            rcases List.mem_cons.mp hm with rfl | hm
            · exact absurd rfl hk'
            · exact ⟨hm, hs⟩
        rw [if_congr hcond rfl rfl]
      · rw [ih _ hnd]
        have hcond : (k ∈ rest ∧ Tracker.kIsStale buckets stale k = true) ↔
            (k ∈ k' :: rest ∧ Tracker.kIsStale buckets stale k = true) := by
          constructor
          · rintro ⟨hm, hs⟩; exact ⟨List.mem_cons_of_mem _ hm, hs⟩
          · rintro ⟨hm, hs⟩
            rcases List.mem_cons.mp hm with rfl | hm
            · exact absurd rfl hk'
            · exact ⟨hm, hs⟩
        rw [if_congr hcond rfl rfl]

/-- The staleness re-scan succeeds exactly when every bucket holding the
key is at or before `stale`. -/
theorem kIsStale_true_iff (buckets : List (Nat × List String)) (stale : Int) (k : String) :
    Tracker.kIsStale buckets stale k = true ↔
      ∀ p ∈ buckets, k ∈ p.2 → (p.1 : Int) ≤ stale := by
  simp only [Tracker.kIsStale, List.all_eq_true, Bool.not_eq_true', Bool.and_eq_false_iff,
    decide_eq_false_iff_not, not_lt]
  constructor
  · intro h p hp hk
    rcases h p hp with h1 | h1
    · exact h1
    · exact absurd hk h1
  · intro h p hp
    by_cases hk : k ∈ p.2
    · exact Or.inl (h p hp hk)
    · exact Or.inr hk

/-- A cleanup advances the cycle counter by one. -/
theorem cleanup_counter (t : Tracker.VehicleTracker) :
    (t.cleanup.1).cycle_counter = t.cycle_counter + 1 := by
  unfold Tracker.VehicleTracker.cleanup
  dsimp only
  split <;> rfl

/-- A cleanup keeps the TTL. -/
theorem cleanup_ttl (t : Tracker.VehicleTracker) :
    (t.cleanup.1).ttl_cycles = t.ttl_cycles := by
  unfold Tracker.VehicleTracker.cleanup
  dsimp only
  split <;> rfl

/-- Buckets surviving a cleanup existed before it. -/
theorem cleanup_buckets_sub (t : Tracker.VehicleTracker) :
    ∀ p ∈ (t.cleanup.1).cycle_to_vehicles, p ∈ t.cycle_to_vehicles := by
  unfold Tracker.VehicleTracker.cleanup
  dsimp only
  split
  · intro p hp; exact hp
  · intro p hp; exact List.mem_of_mem_filter hp

/-- A missing key is still missing after a cleanup. -/
theorem cleanup_lookup_none (t : Tracker.VehicleTracker) (k : String)
    (h : Tracker.lookupAssoc t.states k = none) :
    Tracker.lookupAssoc (t.cleanup.1).states k = none := by
  unfold Tracker.VehicleTracker.cleanup
  dsimp only
  split
  · exact h
  · exact removeStaleKeys_lookup_none _ _ _ _ _ h

/-- A key touched in a bucket newer than `counter + 1 - ttl` survives a
cleanup untouched. -/
theorem cleanup_lookup_preserved (t : Tracker.VehicleTracker) (k : String)
    (hnd : (t.states.map Prod.fst).Nodup)
    (h : ∃ p ∈ t.cycle_to_vehicles,
      ((t.cycle_counter + 1 : Nat) : Int) - (t.ttl_cycles : Int) < (p.1 : Int) ∧ k ∈ p.2) :
    Tracker.lookupAssoc (t.cleanup.1).states k = Tracker.lookupAssoc t.states k := by
  unfold Tracker.VehicleTracker.cleanup
  dsimp only
  split
  · rfl
  · rw [removeStaleKeys_lookup _ _ _ _ _ hnd]
    obtain ⟨p, hp, hgt, hkp⟩ := h
    rw [if_neg]
    rintro ⟨-, hstale⟩
    have := (kIsStale_true_iff _ _ _).mp hstale p hp hkp
    omega

/-- When every bucket holding the key is at or before `counter + 1 - ttl`,
a cleanup evicts the key (or it was already gone). -/
theorem cleanup_lookup_killed (t : Tracker.VehicleTracker) (k : String)
    (hnd : (t.states.map Prod.fst).Nodup)
    (hInvT : (Tracker.lookupAssoc t.states k).isSome = true →
      ∃ p ∈ t.cycle_to_vehicles, k ∈ p.2)
    (hall : ∀ p ∈ t.cycle_to_vehicles, k ∈ p.2 →
      (p.1 : Int) ≤ ((t.cycle_counter + 1 : Nat) : Int) - (t.ttl_cycles : Int)) :
    Tracker.lookupAssoc (t.cleanup.1).states k = none := by
  unfold Tracker.VehicleTracker.cleanup
  dsimp only
  split
  · next hneg =>
    cases hh : Tracker.lookupAssoc t.states k with
    | none => rfl
    | some v =>
      obtain ⟨p, hp, hkp⟩ := hInvT (by simp [hh])
      have := hall p hp hkp
      omega
  · next hpos =>
    rw [removeStaleKeys_lookup _ _ _ _ _ hnd]
    cases hh : Tracker.lookupAssoc t.states k with
    | none => split <;> rfl
    | some v =>
      obtain ⟨p, hp, hkp⟩ := hInvT (by simp [hh])
      have hkstale : Tracker.kIsStale t.cycle_to_vehicles
          (((t.cycle_counter + 1 : Nat) : Int) - (t.ttl_cycles : Int)) k = true :=
        (kIsStale_true_iff _ _ _).mpr hall
      have hmem : k ∈ Tracker.collectStaleKeys
          (t.cycle_to_vehicles.filter
            (fun p => decide ((p.1 : Int) ≤
              ((t.cycle_counter + 1 : Nat) : Int) - (t.ttl_cycles : Int)))) := by
        refine (mem_collectStaleKeys _ _).mpr ⟨p, ?_, hkp⟩
        refine List.mem_filter.mpr ⟨hp, ?_⟩
        exact decide_eq_true (hall p hp hkp)
      rw [if_pos ⟨hmem, hkstale⟩]

/-- The reachability invariant of the tracker: no duplicate state keys,
bucket indices at most the cycle counter, and every tracked key in some
bucket. -/
def TrackerInv (t : Tracker.VehicleTracker) : Prop :=
  (t.states.map Prod.fst).Nodup
  ∧ (∀ p ∈ t.cycle_to_vehicles, p.1 ≤ t.cycle_counter)
  ∧ (∀ k, (Tracker.lookupAssoc t.states k).isSome = true →
      ∃ p ∈ t.cycle_to_vehicles, k ∈ p.2)

/-- A freshly constructed tracker satisfies the invariant. -/
theorem trackerInv_init (T : Nat) (t0 : Tracker.VehicleTracker)
    (h : Tracker.VehicleTracker.init T = some t0) : TrackerInv t0 := by
  unfold Tracker.VehicleTracker.init at h
  split at h
  · exact absurd h (by simp)
  · simp only [Option.some.injEq] at h
    subst h
    refine ⟨List.nodup_nil, ?_, ?_⟩
    · intro p hp; cases hp
    · intro k hk
      simp [Tracker.lookupAssoc] at hk

/-- `update` preserves the invariant. -/
theorem trackerInv_update (t : Tracker.VehicleTracker) (vehicle_key cycle_id : String)
    (observed_at : Int) (lat lon : Option ℚ) (stop_code : String)
    (line_number : Option String) (hInv : TrackerInv t) :
    TrackerInv (t.update vehicle_key cycle_id observed_at lat lon stop_code line_number).2 := by
  obtain ⟨hnd, hidx, hmem⟩ := hInv
  unfold Tracker.VehicleTracker.update
  dsimp only
  refine ⟨nodup_insertAssoc _ _ _ hnd, ?_, ?_⟩
  · intro p hp
    rcases bucketAdd_idx _ _ _ p hp with h | ⟨q, hq, hh⟩
    · show p.1 ≤ t.cycle_counter
      omega
    · have := hidx q hq
      show p.1 ≤ t.cycle_counter
      omega
  · intro k' hk'
    by_cases hkk : vehicle_key = k'
    · obtain ⟨p, hp, _, hself⟩ := bucketAdd_self_mem t.cycle_to_vehicles t.cycle_counter vehicle_key
      exact ⟨p, hp, hkk ▸ hself⟩
    · rw [lookupAssoc_insertAssoc_ne _ _ _ _ hkk] at hk'
      obtain ⟨p, hp, hkp⟩ := hmem k' hk'
      obtain ⟨p', hp', _, hk2⟩ := bucketAdd_mem_intro _ _ _ p hp k' hkp
      exact ⟨p', hp', hk2⟩

/-- `cleanup` preserves the invariant. -/
theorem trackerInv_cleanup (t : Tracker.VehicleTracker) (hInv : TrackerInv t) :
    TrackerInv (t.cleanup.1) := by
  obtain ⟨hnd, hidx, hmem⟩ := hInv
  unfold Tracker.VehicleTracker.cleanup
  dsimp only
  split
  · refine ⟨hnd, ?_, hmem⟩
    intro p hp
    have := hidx p hp
    show p.1 ≤ t.cycle_counter + 1
    omega
  · refine ⟨removeStaleKeys_nodup _ _ _ _ hnd, ?_, ?_⟩
    · intro p hp
      have := hidx p (List.mem_of_mem_filter hp)
      show p.1 ≤ t.cycle_counter + 1
      omega
    · intro k hk
      dsimp only at hk ⊢
      rw [removeStaleKeys_lookup _ _ _ _ _ hnd] at hk
      split at hk
      · simp at hk
      · next hcond =>
        obtain ⟨p, hp, hkp⟩ := hmem k hk
        by_cases hks : Tracker.kIsStale t.cycle_to_vehicles
            (((t.cycle_counter + 1 : Nat) : Int) - (t.ttl_cycles : Int)) k = true
        · exfalso
          apply hcond
          refine ⟨?_, hks⟩
          refine (mem_collectStaleKeys _ _).mpr ⟨p, ?_, hkp⟩
          refine List.mem_filter.mpr ⟨hp, ?_⟩
          exact decide_eq_true ((kIsStale_true_iff _ _ _).mp hks p hp hkp)
        · have hfalse : Tracker.kIsStale t.cycle_to_vehicles
              (((t.cycle_counter + 1 : Nat) : Int) - (t.ttl_cycles : Int)) k = false :=
            Bool.not_eq_true _ ▸ Bool.of_not_eq_true hks
          obtain ⟨q, hq, hqf⟩ := List.all_eq_false.mp hfalse
          simp at hqf
          refine ⟨q, ?_, hqf.2⟩
          refine List.mem_filter.mpr ⟨hq, ?_⟩
          exact decide_eq_true hqf.1

/-- An update under a different key leaves a lookup unchanged. -/
theorem update_lookup_ne (t : Tracker.VehicleTracker) (k' cycle_id : String)
    (observed_at : Int) (lat lon : Option ℚ) (stop_code : String)
    (line_number : Option String) (k : String) (h : k' ≠ k) :
    Tracker.lookupAssoc ((t.update k' cycle_id observed_at lat lon stop_code
      line_number).2).states k = Tracker.lookupAssoc t.states k := by
  unfold Tracker.VehicleTracker.update
  dsimp only
  exact lookupAssoc_insertAssoc_ne _ _ _ _ h

/-- Any tracker call keeps the TTL. -/
theorem applyOp_ttl (t : Tracker.VehicleTracker) (op : Tracker.TrackerOp) :
    (Tracker.applyOp t op).ttl_cycles = t.ttl_cycles := by
  cases op with
  | update k cid oa lat lon sc ln => rfl
  | cleanup => exact cleanup_ttl t

/-- Any call sequence keeps the TTL. -/
theorem applyOps_ttl (ops : List Tracker.TrackerOp) :
    ∀ t : Tracker.VehicleTracker, (Tracker.applyOps t ops).ttl_cycles = t.ttl_cycles := by
  induction ops with
  | nil => intro t; rfl
  | cons op rest ih =>
    intro t
    rw [show Tracker.applyOps t (op :: rest) =
      Tracker.applyOps (Tracker.applyOp t op) rest from rfl]
    rw [ih, applyOp_ttl]

/-- Any tracker call preserves the invariant. -/
theorem trackerInv_applyOp (t : Tracker.VehicleTracker) (op : Tracker.TrackerOp)
    (hInv : TrackerInv t) : TrackerInv (Tracker.applyOp t op) := by
  cases op with
  | update k cid oa lat lon sc ln => exact trackerInv_update t k cid oa lat lon sc ln hInv
  | cleanup => exact trackerInv_cleanup t hInv

/-- Any call sequence preserves the invariant. -/
theorem trackerInv_applyOps (ops : List Tracker.TrackerOp) :
    ∀ t : Tracker.VehicleTracker, TrackerInv t → TrackerInv (Tracker.applyOps t ops) := by
  induction ops with
  | nil => intro t h; exact h
  | cons op rest ih =>
    intro t h
    rw [show Tracker.applyOps t (op :: rest) =
      Tracker.applyOps (Tracker.applyOp t op) rest from rfl]
    exact ih _ (trackerInv_applyOp t op h)

/-- A key the sequence never updates stays evicted once gone. -/
theorem applyOps_dead (k : String) (ops : List Tracker.TrackerOp)
    (hops : ∀ op ∈ ops, Tracker.opUpdatesKey op k = false) :
    ∀ t : Tracker.VehicleTracker, Tracker.lookupAssoc t.states k = none →
      Tracker.lookupAssoc (Tracker.applyOps t ops).states k = none := by
  induction ops with
  | nil => intro t h; exact h
  | cons op rest ih =>
    intro t h
    have hoprest : ∀ o ∈ rest, Tracker.opUpdatesKey o k = false :=
      fun o ho => hops o (List.mem_cons_of_mem _ ho)
    rw [show Tracker.applyOps t (op :: rest) =
      Tracker.applyOps (Tracker.applyOp t op) rest from rfl]
    apply ih hoprest
    cases op with
    | update k' cid oa lat lon sc ln =>
      have hne : k' ≠ k := by
        simpa [Tracker.opUpdatesKey] using hops _ (List.mem_cons_self _ _)
      rw [show Tracker.applyOp t (Tracker.TrackerOp.update k' cid oa lat lon sc ln) =
        (t.update k' cid oa lat lon sc ln).2 from rfl]
      rw [update_lookup_ne _ _ _ _ _ _ _ _ _ hne]
      exact h
    | cleanup => exact cleanup_lookup_none t k h

/-- The core of the TTL eviction argument: with at least `m ≥ 1` cleanups
ahead, no further updates of the key, and every bucket holding the key due
to go stale within `m` cleanups, the key ends up evicted. -/
theorem tracker_evicts_aux (k : String) :
    ∀ (post : List Tracker.TrackerOp) (t : Tracker.VehicleTracker) (m : Nat),
      TrackerInv t →
      (∀ op ∈ post, Tracker.opUpdatesKey op k = false) →
      1 ≤ m → m ≤ Tracker.countCleanups post →
      (∀ p ∈ t.cycle_to_vehicles, k ∈ p.2 →
        (p.1 : Int) + (t.ttl_cycles : Int) ≤ (t.cycle_counter : Int) + (m : Int)) →
      Tracker.lookupAssoc (Tracker.applyOps t post).states k = none := by
  intro post
  induction post with
  | nil =>
    intro t m _ _ hm1 hm2 _
    simp [Tracker.countCleanups] at hm2
    omega
  | cons op rest ih =>
    intro t m hInv hops hm1 hm2 hbound
    have hoprest : ∀ o ∈ rest, Tracker.opUpdatesKey o k = false :=
      fun o ho => hops o (List.mem_cons_of_mem _ ho)
    rw [show Tracker.applyOps t (op :: rest) =
      Tracker.applyOps (Tracker.applyOp t op) rest from rfl]
    cases op with
    | update k' cid oa lat lon sc ln =>
      have hne : k' ≠ k := by
        simpa [Tracker.opUpdatesKey] using hops _ (List.mem_cons_self _ _)
      have hcount : Tracker.countCleanups (Tracker.TrackerOp.update k' cid oa lat lon sc ln
          :: rest) = Tracker.countCleanups rest := by
        simp [Tracker.countCleanups, List.filter_cons]
      apply ih _ m (trackerInv_applyOp t _ hInv) hoprest hm1 (by omega)
      intro p hp hkp
      rw [show Tracker.applyOp t (Tracker.TrackerOp.update k' cid oa lat lon sc ln) =
        (t.update k' cid oa lat lon sc ln).2 from rfl] at hp ⊢
      have helim := bucketAdd_mem_elim t.cycle_to_vehicles t.cycle_counter k' p
        (by
          have : ((t.update k' cid oa lat lon sc ln).2).cycle_to_vehicles =
              Tracker.bucketAdd t.cycle_to_vehicles t.cycle_counter k' := rfl
          rw [this] at hp
          exact hp) k hkp
      rcases helim with ⟨_, rfl⟩ | ⟨q, hq, hfst, hkq⟩
      · exact absurd rfl hne
      · have := hbound q hq hkq
        have hcnt : ((t.update k' cid oa lat lon sc ln).2).cycle_counter =
            t.cycle_counter := rfl
        have httl : ((t.update k' cid oa lat lon sc ln).2).ttl_cycles =
            t.ttl_cycles := rfl
        rw [hcnt, httl]
        omega
    | cleanup =>
      have hcount : Tracker.countCleanups (Tracker.TrackerOp.cleanup :: rest) =
          Tracker.countCleanups rest + 1 := by
        simp [Tracker.countCleanups, List.filter_cons]
      by_cases hm : m = 1
      · subst hm
        have hall : ∀ p ∈ t.cycle_to_vehicles, k ∈ p.2 →
            (p.1 : Int) ≤ ((t.cycle_counter + 1 : Nat) : Int) - (t.ttl_cycles : Int) := by
          intro p hp hk
          have := hbound p hp hk
          push_cast
          omega
        have hdead := cleanup_lookup_killed t k hInv.1 (hInv.2.2 k) hall
        exact applyOps_dead k rest hoprest _ hdead
      · apply ih _ (m - 1) (trackerInv_applyOp t _ hInv) hoprest (by omega) (by omega)
        intro p hp hkp
        rw [show Tracker.applyOp t Tracker.TrackerOp.cleanup = t.cleanup.1 from rfl] at hp ⊢
        have hsub := cleanup_buckets_sub t p hp
        have := hbound p hsub hkp
        rw [cleanup_counter, cleanup_ttl]
        have hm1' : 1 ≤ m - 1 := by omega
        push_cast
        omega

/-- What `VehicleTracker.__init__` builds. -/
theorem init_fields (T : Nat) (t0 : Tracker.VehicleTracker)
    (h : Tracker.VehicleTracker.init T = some t0) :
    t0.ttl_cycles = T ∧ 1 ≤ T := by
  unfold Tracker.VehicleTracker.init at h
  split at h
  · exact absurd h (by simp)
  · next hlt =>
    simp only [Option.some.injEq] at h
    subst h
    exact ⟨rfl, by omega⟩

/-- C3: for a tracker constructed with `ttl_cycles = T ≥ 1`, any key that
receives no update during `T` (or more) cleanup calls is evicted —
`get_vehicle_state` returns none — while a single `cleanup` never removes a
key that appears in a cycle bucket newer than `currentCycleOrdinal - T`,
even if the key also sits in an older, stale bucket. -/
theorem c3_ttl_eviction :
    (∀ (T : Nat) (t0 : Tracker.VehicleTracker),
       Tracker.VehicleTracker.init T = some t0 →
       ∀ (pre post : List Tracker.TrackerOp) (k : String),
         (∀ op ∈ post, Tracker.opUpdatesKey op k = false) →
         T ≤ Tracker.countCleanups post →
         (Tracker.applyOps (Tracker.applyOps t0 pre) post).get_vehicle_state k = none)
  ∧ (∀ (T : Nat) (t0 : Tracker.VehicleTracker),
       Tracker.VehicleTracker.init T = some t0 →
       ∀ (pre : List Tracker.TrackerOp) (k : String),
         (∃ p ∈ (Tracker.applyOps t0 pre).cycle_to_vehicles,
           (((Tracker.applyOps t0 pre).cycle_counter + 1 : Nat) : Int) -
             ((Tracker.applyOps t0 pre).ttl_cycles : Int) < (p.1 : Int) ∧ k ∈ p.2) →
         ((Tracker.applyOps t0 pre).cleanup.1).get_vehicle_state k =
           (Tracker.applyOps t0 pre).get_vehicle_state k) := by
  constructor
  · intro T t0 hinit pre post k hops hcount
    obtain ⟨httl0, hT⟩ := init_fields T t0 hinit
    have hInv := trackerInv_applyOps pre t0 (trackerInv_init T t0 hinit)
    have httl : (Tracker.applyOps t0 pre).ttl_cycles = T := by rw [applyOps_ttl, httl0]
    show Tracker.lookupAssoc (Tracker.applyOps (Tracker.applyOps t0 pre) post).states k = none
    apply tracker_evicts_aux k post _ T hInv hops hT (httl ▸ hcount)
    intro p hp hkp
    have := hInv.2.1 p hp
    rw [httl]
    omega
  · intro T t0 hinit pre k hex
    have hInv := trackerInv_applyOps pre t0 (trackerInv_init T t0 hinit)
    show Tracker.lookupAssoc ((Tracker.applyOps t0 pre).cleanup.1).states k =
      Tracker.lookupAssoc (Tracker.applyOps t0 pre).states k
    exact cleanup_lookup_preserved _ k hInv.1 hex

/-- Witness for C3 at concrete inputs: with TTL 1, one cleanup after no
updates evicts any key; with TTL 2, a key touched in cycle 0 survives the
first cleanup (its bucket, index 0, is newer than `1 - 2 = -1`). -/
theorem c3_witness :
    (Tracker.applyOps (Tracker.applyOps ⟨[], 1, 0, []⟩ [])
        [Tracker.TrackerOp.cleanup]).get_vehicle_state "k" = none
  ∧ ((Tracker.applyOps (⟨[], 2, 0, []⟩ : Tracker.VehicleTracker)
        [Tracker.TrackerOp.update "k" "c1" 0 none none "s" none]).cleanup.1).get_vehicle_state
          "k" =
      (Tracker.applyOps (⟨[], 2, 0, []⟩ : Tracker.VehicleTracker)
        [Tracker.TrackerOp.update "k" "c1" 0 none none "s" none]).get_vehicle_state "k" := by
  constructor
  · exact c3_ttl_eviction.1 1 ⟨[], 1, 0, []⟩ rfl [] [Tracker.TrackerOp.cleanup] "k"
      (by decide) (by decide)
  · refine c3_ttl_eviction.2 2 ⟨[], 2, 0, []⟩ rfl
      [Tracker.TrackerOp.update "k" "c1" 0 none none "s" none] "k" ?_
    exact ⟨(0, ["k"]), by decide, by decide, by decide⟩

/-- Witness for C6: an empty tracker reports `is_new` for any key. -/
theorem c6_witness :
    Tracker.VehicleTracker.detect_movement (fun _ _ _ _ => 0) ⟨[], 5, 0, []⟩ "k" "1001"
        none none = Tracker.MovementResult.isNew :=
  c6_detect_movement.1 (fun _ _ _ _ => 0) ⟨[], 5, 0, []⟩ "k" "1001" none none rfl

/-- Did this attempt succeed? -/
def Bgpp.Attempt.isSuccess : Bgpp.Attempt → Bool
  | .success _ _ => true
  | _ => false

/-- The error string the retry loop records for this attempt. -/
def Bgpp.Attempt.classify : Bgpp.Attempt → Option String
  | .success _ _ => none
  | .httpError c => some ("http_error:" ++ toString c)
  | .urlError r => some ("url_error:" ++ r)
  | .oserror m => some ("error:" ++ m)

/-- The `status` variable after this attempt: an `HTTPError` overwrites it,
the other failures leave it. -/
def Bgpp.statusAfter (status : Option Int) : Bgpp.Attempt → Option Int
  | .httpError c => some c
  | _ => status

/-- One of the three classified error shapes of the spec. -/
def Bgpp.classifiedError (e : String) : Prop :=
  (∃ s, e = "http_error:" ++ s) ∨ (∃ s, e = "url_error:" ++ s) ∨ (∃ s, e = "error:" ++ s)

/-- A failed attempt is classified, and into one of the three shapes. -/
theorem Bgpp.classify_of_fail (a : Bgpp.Attempt) (h : a.isSuccess = false) :
    ∃ e, a.classify = some e ∧ Bgpp.classifiedError e := by
  cases a with
  | success p st => simp [Bgpp.Attempt.isSuccess] at h
  | httpError c => exact ⟨_, rfl, Or.inl ⟨toString c, rfl⟩⟩
  | urlError r => exact ⟨_, rfl, Or.inr (Or.inl ⟨r, rfl⟩)⟩
  | oserror m => exact ⟨_, rfl, Or.inr (Or.inr ⟨m, rfl⟩)⟩

/-- A failing attempt makes the loop recurse, carrying its classification
as `last_error` and its status effect. -/
theorem fetchLoop_fail_step (outcomes : Nat → Bgpp.Attempt) (sc : String) (oa dm : Int)
    (retries m attempt : Nat) (lastError : Option String) (status : Option Int)
    (h : (outcomes attempt).isSuccess = false) :
    Bgpp.fetchLoop outcomes sc oa dm retries (m + 1) attempt lastError status =
      Bgpp.fetchLoop outcomes sc oa dm retries m (attempt + 1)
        ((outcomes attempt).classify) (Bgpp.statusAfter status (outcomes attempt)) := by
  cases hout : outcomes attempt with
  | success p st => rw [hout] at h; simp [Bgpp.Attempt.isSuccess] at h
  | httpError c => simp [Bgpp.fetchLoop, hout, Bgpp.Attempt.classify, Bgpp.statusAfter]
  | urlError r => simp [Bgpp.fetchLoop, hout, Bgpp.Attempt.classify, Bgpp.statusAfter]
  | oserror m' => simp [Bgpp.fetchLoop, hout, Bgpp.Attempt.classify, Bgpp.statusAfter]

/-- If every attempt in the remaining window fails, the loop ends with the
failure record: `retries + 1` reported attempts, a null payload, and the
classified error of the window's last attempt (the carried `last_error`
when the window is empty). -/
theorem fetchLoop_all_fail (outcomes : Nat → Bgpp.Attempt) (sc : String) (oa dm : Int)
    (retries : Nat) :
    ∀ (n attempt : Nat) (lastError : Option String) (status : Option Int),
      (∀ k, attempt ≤ k → k < attempt + n → (outcomes k).isSuccess = false) →
      (Bgpp.fetchLoop outcomes sc oa dm retries n attempt lastError status).attempts = retries + 1
      ∧ (Bgpp.fetchLoop outcomes sc oa dm retries n attempt lastError status).payload = .vnull
      ∧ (Bgpp.fetchLoop outcomes sc oa dm retries n attempt lastError status).error =
          some ((if n = 0 then lastError else (outcomes (attempt + n - 1)).classify).getD
            "unknown_error") := by
  intro n
  induction n with
  | zero => intro attempt lastError status _; exact ⟨rfl, rfl, rfl⟩
  | succ m ih =>
    intro attempt lastError status hfail
    have hstep := fetchLoop_fail_step outcomes sc oa dm retries m attempt lastError status
      (hfail attempt (Nat.le_refl _) (by omega))
    rw [hstep]
    have hrest := ih (attempt + 1) ((outcomes attempt).classify)
      (Bgpp.statusAfter status (outcomes attempt)) (fun k h1 h2 => hfail k (by omega) (by omega))
    refine ⟨hrest.1, hrest.2.1, ?_⟩
    rw [hrest.2.2]
    by_cases hm : m = 0
    · subst hm
      simp
    · rw [if_neg hm, if_neg (Nat.succ_ne_zero m)]
      have hidx : attempt + 1 + m - 1 = attempt + (m + 1) - 1 := by omega
      rw [hidx]

/-- If attempt `j` inside the remaining window is the first success, the
loop returns the success record: `j` reported attempts, the parsed payload,
no error, and that attempt's status. -/
theorem fetchLoop_first_success (outcomes : Nat → Bgpp.Attempt) (sc : String) (oa dm : Int)
    (retries : Nat) :
    ∀ (n attempt : Nat) (lastError : Option String) (status : Option Int)
      (j : Nat) (p : Val) (st : Option Int),
      attempt ≤ j → j < attempt + n →
      (∀ k, attempt ≤ k → k < j → (outcomes k).isSuccess = false) →
      outcomes j = .success p st →
      Bgpp.fetchLoop outcomes sc oa dm retries n attempt lastError status =
        { stop_code := sc, observed_at := oa, payload := p, error := none, status := st
          duration_ms := dm, attempts := j } := by
  intro n
  induction n with
  | zero => intro attempt lastError status j p st h1 h2 _ _; omega
  | succ m ih =>
    intro attempt lastError status j p st h1 h2 hfail hj
    by_cases heq : attempt = j
    · subst heq
      simp [Bgpp.fetchLoop, hj]
    · have hstep := fetchLoop_fail_step outcomes sc oa dm retries m attempt lastError status
        (hfail attempt (Nat.le_refl _) (by omega))
      rw [hstep]
      exact ih (attempt + 1) _ _ j p st (by omega) (by omega)
        (fun k hk1 hk2 => hfail k (by omega) hk2) hj

/-- C2 amended: `fetch_stop` is total (never raises).  When every one of the
`r + 1` attempts fails it reports `attempts = r + 1`, a null payload, and
the classified error of the final attempt, of one of the forms
`http_error:<code>`, `url_error:<reason>`, `error:<message>`.  When the
first success is at attempt `k ≤ r + 1` it reports `attempts = k`, a null
error, and the payload parsed from that attempt's body — so exactly one of
payload/error is set unless the successful body is the JSON literal `null`,
in which case both are `None`. -/
theorem c2_fetch_outcome (outcomes : Nat → Bgpp.Attempt) (stop_code : String)
    (observed_at duration_ms : Int) (retries : Nat) :
    ((∀ k, 1 ≤ k → k ≤ retries + 1 → (outcomes k).isSuccess = false) →
       (Bgpp.fetch_stop outcomes stop_code observed_at duration_ms retries).attempts = retries + 1
       ∧ (Bgpp.fetch_stop outcomes stop_code observed_at duration_ms retries).payload = .vnull
       ∧ (Bgpp.fetch_stop outcomes stop_code observed_at duration_ms retries).error =
           (outcomes (retries + 1)).classify
       ∧ ∃ e, (Bgpp.fetch_stop outcomes stop_code observed_at duration_ms retries).error = some e
           ∧ Bgpp.classifiedError e)
  ∧ (∀ (j : Nat) (p : Val) (st : Option Int),
       1 ≤ j → j ≤ retries + 1 →
       (∀ k, 1 ≤ k → k < j → (outcomes k).isSuccess = false) →
       outcomes j = .success p st →
       Bgpp.fetch_stop outcomes stop_code observed_at duration_ms retries =
         { stop_code := stop_code, observed_at := observed_at, payload := p, error := none
           status := st, duration_ms := duration_ms, attempts := j }) := by
  constructor
  · intro hfail
    have h := fetchLoop_all_fail outcomes stop_code observed_at duration_ms retries
      (retries + 1) 1 none none (fun k h1 h2 => hfail k h1 (by omega))
    have hlast : (outcomes (1 + (retries + 1) - 1)).isSuccess = false :=
      hfail _ (by omega) (by omega)
    have hidx : 1 + (retries + 1) - 1 = retries + 1 := by omega
    rw [hidx] at hlast
    obtain ⟨e, he, hce⟩ := Bgpp.classify_of_fail _ hlast
    refine ⟨h.1, h.2.1, ?_, ?_⟩
    · show (Bgpp.fetchLoop outcomes stop_code observed_at duration_ms retries
        (retries + 1) 1 none none).error = _
      rw [h.2.2, if_neg (Nat.succ_ne_zero retries), hidx, he]
      rfl
    · refine ⟨e, ?_, hce⟩
      show (Bgpp.fetchLoop outcomes stop_code observed_at duration_ms retries
        (retries + 1) 1 none none).error = some e
      rw [h.2.2, if_neg (Nat.succ_ne_zero retries), hidx, he]
      rfl
  · intro j p st h1 h2 hfail hj
    exact fetchLoop_first_success outcomes stop_code observed_at duration_ms retries
      (retries + 1) 1 none none j p st h1 (by omega) (fun k hk1 hk2 => hfail k hk1 hk2) hj

/-- C2 fails as stated: a first-attempt success whose body is the JSON
document `null` (Python `json.loads` returns `None`) yields a `FetchResult`
with `payload = None` and `error = None` — neither of the two fields of the
claimed "exactly one of payload and error is set" invariant is set, and the
claimed non-null payload on success is null. -/
theorem c2_counterexample :
    (Bgpp.fetch_stop (fun _ => .success .vnull (some 200)) "1001" 0 0 0).payload = Val.vnull
  ∧ (Bgpp.fetch_stop (fun _ => .success .vnull (some 200)) "1001" 0 0 0).error = none
  ∧ (Bgpp.fetch_stop (fun _ => .success .vnull (some 200)) "1001" 0 0 0).attempts = 1 :=
  ⟨rfl, rfl, rfl⟩

/-- A fetch history that fails on attempts 1 and 2 and succeeds on
attempt 3. -/
def c2outcomes : Nat → Bgpp.Attempt :=
  fun n => if n ≤ 2 then .urlError "timeout" else .success (Val.vobj []) (some 200)

/-- Witness for C2 at concrete inputs: with `retries = 2`, an always-failing
history reports `attempts = 3` and the classified error of the final
attempt; a fail-fail-succeed history reports `attempts = 3` with the
payload and no error. -/
theorem c2_witness :
    ((Bgpp.fetch_stop (fun _ => .httpError 500) "1001" 0 0 2).attempts = 2 + 1
     ∧ (Bgpp.fetch_stop (fun _ => .httpError 500) "1001" 0 0 2).error =
         (Bgpp.Attempt.httpError 500).classify)
  ∧ Bgpp.fetch_stop c2outcomes "1001" 0 0 2 =
      { stop_code := "1001", observed_at := 0, payload := Val.vobj [], error := none
        status := some 200, duration_ms := 0, attempts := 3 } := by
  constructor
  · have h := (c2_fetch_outcome (fun _ => .httpError 500) "1001" 0 0 2).1
      (fun _ _ _ => rfl)
    exact ⟨h.1, h.2.2.1⟩
  · refine (c2_fetch_outcome c2outcomes "1001" 0 0 2).2 3 (Val.vobj []) (some 200)
      (by omega) (by omega) ?_ rfl
    intro k hk1 hk2
    have hk : k ≤ 2 := by omega
    simp [c2outcomes, hk, Bgpp.Attempt.isSuccess]

/-- Did the stop query complete with a `FetchResult` (as opposed to an
exception escaping the worker)? -/
def Orchestrator.completedQuery : Stop × Orchestrator.FutureOutcome → Bool
  | (_, .ok _) => true
  | (_, .exn _) => false

/-- Claim C7's successful query: the `FetchResult` carries a payload and no
error. -/
def Orchestrator.successfulQuery : Stop × Orchestrator.FutureOutcome → Bool
  | (_, .ok r) =>
    (match r.error with | none => true | some _ => false) &&
      (match r.payload with | .vnull => false | _ => true)
  | (_, .exn _) => false

/-- A query the cycle counts as an error: a truthy `FetchResult.error`, or
an escaped exception. -/
def Orchestrator.erroredQuery : Stop × Orchestrator.FutureOutcome → Bool
  | (_, .ok r) => Orchestrator.errTruthy r.error
  | (_, .exn _) => true

/-- Number of completed queries. -/
def Orchestrator.countCompleted (inputs : List (Stop × Orchestrator.FutureOutcome)) : Nat :=
  (inputs.filter Orchestrator.completedQuery).length

/-- Number of successful queries in the claim's sense. -/
def Orchestrator.countSuccessful (inputs : List (Stop × Orchestrator.FutureOutcome)) : Nat :=
  (inputs.filter Orchestrator.successfulQuery).length

/-- Number of queries counted as errors. -/
def Orchestrator.countErrored (inputs : List (Stop × Orchestrator.FutureOutcome)) : Nat :=
  (inputs.filter Orchestrator.erroredQuery).length

/-- One vehicle never touches the response or error counters. -/
theorem processOneVehicle_counters (cycle_id : String) (stop : Stop) (result : FetchResult)
    (st : Orchestrator.CycleState) (fields : List (String × Val)) :
    (Orchestrator.processOneVehicle cycle_id stop result st fields).responses = st.responses
    ∧ (Orchestrator.processOneVehicle cycle_id stop result st fields).errors = st.errors := by
  unfold Orchestrator.processOneVehicle
  dsimp only
  split <;> exact ⟨rfl, rfl⟩

/-- The vehicle loop never touches the response or error counters. -/
theorem processVehicles_counters (cycle_id : String) (stop : Stop) (result : FetchResult) :
    ∀ (vehicles : List Val) (st st' : Orchestrator.CycleState),
      Orchestrator.processVehicles cycle_id stop result st vehicles = some st' →
      st'.responses = st.responses ∧ st'.errors = st.errors := by
  intro vehicles
  induction vehicles with
  | nil =>
    intro st st' h
    simp only [Orchestrator.processVehicles, Option.some.injEq] at h
    subst h
    exact ⟨rfl, rfl⟩
  | cons v rest ih =>
    intro st st' h
    cases v <;> simp only [Orchestrator.processVehicles] at h <;>
      try exact absurd h (by simp)
    next fields =>
      have hrest := ih _ _ h
      have hone := processOneVehicle_counters cycle_id stop result st fields
      exact ⟨hrest.1.trans hone.1, hrest.2.trans hone.2⟩

/-- Prepending a query adds its completed count. -/
theorem countCompleted_cons (input : Stop × Orchestrator.FutureOutcome)
    (rest : List (Stop × Orchestrator.FutureOutcome)) :
    Orchestrator.countCompleted (input :: rest) =
      (if Orchestrator.completedQuery input then 1 else 0) +
        Orchestrator.countCompleted rest := by
  unfold Orchestrator.countCompleted
  rw [List.filter_cons]
  split
  · simp [Nat.add_comm]
  · simp

/-- Prepending a query adds its errored count. -/
theorem countErrored_cons (input : Stop × Orchestrator.FutureOutcome)
    (rest : List (Stop × Orchestrator.FutureOutcome)) :
    Orchestrator.countErrored (input :: rest) =
      (if Orchestrator.erroredQuery input then 1 else 0) +
        Orchestrator.countErrored rest := by
  unfold Orchestrator.countErrored
  rw [List.filter_cons]
  split
  · simp [Nat.add_comm]
  · simp

/-- The aggregation loop adds one response per completed query and one
error per classified-error result or escaped exception. -/
theorem runCycleFrom_counts (cycle_id : String) (now : Int) :
    ∀ (inputs : List (Stop × Orchestrator.FutureOutcome)) (st st' : Orchestrator.CycleState),
      Orchestrator.runCycleFrom cycle_id now st inputs = some st' →
      st'.responses = st.responses + Orchestrator.countCompleted inputs
      ∧ st'.errors = st.errors + Orchestrator.countErrored inputs := by
  intro inputs
  induction inputs with
  | nil =>
    intro st st' h
    simp only [Orchestrator.runCycleFrom, Option.some.injEq] at h
    subst h
    simp [Orchestrator.countCompleted, Orchestrator.countErrored]
  | cons input rest ih =>
    intro st st' h
    simp only [Orchestrator.runCycleFrom] at h
    cases hps : Orchestrator.processStop cycle_id now st input with
    | none => rw [hps] at h; exact absurd h (by simp)
    | some st1 =>
      rw [hps] at h
      have hrest := ih st1 st' h
      obtain ⟨stop, out⟩ := input
      cases out with
      | exn msg =>
        simp only [Orchestrator.processStop, Option.some.injEq] at hps
        subst hps
        dsimp only at hrest
        simp only [countCompleted_cons, countErrored_cons]
        simp [Orchestrator.completedQuery, Orchestrator.erroredQuery]
        omega
      | ok result =>
        simp only [Orchestrator.processStop] at hps
        by_cases he : Orchestrator.errTruthy result.error
        · rw [if_pos he] at hps
          simp only [Option.some.injEq] at hps
          subst hps
          dsimp only at hrest
          simp only [countCompleted_cons, countErrored_cons]
          simp [Orchestrator.completedQuery, Orchestrator.erroredQuery, he]
          omega
        · rw [if_neg he] at hps
          have hpv := processVehicles_counters cycle_id stop result _ _ _ hps
          dsimp only at hpv
          simp only [countCompleted_cons, countErrored_cons]
          simp [Orchestrator.completedQuery, Orchestrator.erroredQuery, he]
          omega

/-- C7 amended: the `responses` field counts every stop query that returned
a `FetchResult` — successes and classified-error results alike; only
escaped worker exceptions are excluded — while `errors` counts the
classified-error results plus the escaped exceptions.  (The successful
count is therefore `responses - errors`, not `responses`.) -/
theorem c7_responses_count_completed :
    ∀ (cycle_id : String) (now : Int) (inputs : List (Stop × Orchestrator.FutureOutcome)),
      (Orchestrator.runCycle cycle_id now inputs).elim True (fun st =>
        st.responses = Orchestrator.countCompleted inputs
        ∧ st.errors = Orchestrator.countErrored inputs) := by
  intro cycle_id now inputs
  cases h : Orchestrator.runCycle cycle_id now inputs with
  | none => exact trivial
  | some st =>
    have := runCycleFrom_counts cycle_id now inputs Orchestrator.initState st h
    simpa [Orchestrator.initState] using this

/-- The stop of the C7 counterexample. -/
def c7stop : Stop := ⟨1, "1001", "Stop A", 44, 20⟩

/-- A completed query whose `FetchResult` is a classified error. -/
def c7errResult : FetchResult := ⟨"1001", 0, .vnull, some "http_error:500", some 500, 5, 3⟩

/-- One stop whose query returns a classified error. -/
def c7inputs : List (Stop × Orchestrator.FutureOutcome) := [(c7stop, .ok c7errResult)]

/-- C7 fails as stated: a cycle whose single query returns a classified
error emits a summary with `responses = 1` (and `errors = 1`), while the
number of queries that completed successfully is `0` — `responses` counts
completed queries, not successful ones. -/
theorem c7_counterexample :
    (Orchestrator.collect_once "c" 0 c7inputs).map (fun s => (s.responses, s.errors)) =
      some (1, 1)
  ∧ Orchestrator.countSuccessful c7inputs = 0 :=
  ⟨rfl, rfl⟩

/-- The keys of a list in order of first occurrence, given the keys already
seen. -/
def firstOccAux (seen : List String) : List String → List String
  | [] => []
  | k :: ks => if k ∈ seen then firstOccAux seen ks else k :: firstOccAux (seen ++ [k]) ks

/-- The keys of a list in order of first occurrence. -/
def firstOcc (ks : List String) : List String :=
  firstOccAux [] ks

/-- `firstOccAux` only depends on the membership of `seen`. -/
theorem firstOccAux_congr :
    ∀ (l s1 s2 : List String), (∀ x, x ∈ s1 ↔ x ∈ s2) →
      firstOccAux s1 l = firstOccAux s2 l := by
  intro l
  induction l with
  | nil => intro s1 s2 _; rfl
  | cons k ks ih =>
    intro s1 s2 hs
    simp only [firstOccAux]
    by_cases hk : k ∈ s1
    · rw [if_pos hk, if_pos ((hs k).mp hk)]
      exact ih _ _ hs
    · rw [if_neg hk, if_neg (fun h => hk ((hs k).mpr h))]
      congr 1
      apply ih
      intro x
      simp only [List.mem_append]
      constructor
      · intro h; rcases h with h | h
        · exact Or.inl ((hs x).mp h)
        · exact Or.inr h
      · intro h; rcases h with h | h
        · exact Or.inl ((hs x).mpr h)
        · exact Or.inr h

/-- Appending one key: it survives exactly when it is new. -/
theorem firstOccAux_append_one :
    ∀ (l seen : List String) (k : String),
      firstOccAux seen (l ++ [k]) =
        firstOccAux seen l ++ (if k ∈ seen ∨ k ∈ l then [] else [k]) := by
  intro l
  induction l with
  | nil =>
    intro seen k
    by_cases hk : k ∈ seen <;> simp [firstOccAux, hk]
  | cons a t ih =>
    intro seen k
    simp only [List.cons_append, firstOccAux, List.append_eq]
    by_cases ha : a ∈ seen
    · rw [if_pos ha, if_pos ha, ih]
      have hiff : (k ∈ seen ∨ k ∈ t) ↔ (k ∈ seen ∨ k ∈ a :: t) := by
        simp only [List.mem_cons]
        constructor
        · tauto
        · rintro (h | h | h)
          · exact Or.inl h
          · exact Or.inl (h ▸ ha)
          · exact Or.inr h
      rw [if_congr hiff rfl rfl]
    · rw [if_neg ha, if_neg ha, ih, List.cons_append]
      have hiff : (k ∈ seen ++ [a] ∨ k ∈ t) ↔ (k ∈ seen ∨ k ∈ a :: t) := by
        simp only [List.mem_append, List.mem_cons, List.mem_singleton]
        tauto
      rw [if_congr hiff rfl rfl]

/-- A repeated key does not extend the first-occurrence list. -/
theorem firstOcc_append_mem (l : List String) (k : String) (h : k ∈ l) :
    firstOcc (l ++ [k]) = firstOcc l := by
  unfold firstOcc
  rw [firstOccAux_append_one]
  simp [h]

/-- A new key extends the first-occurrence list at the end. -/
theorem firstOcc_append_not_mem (l : List String) (k : String) (h : ¬k ∈ l) :
    firstOcc (l ++ [k]) = firstOcc l ++ [k] := by
  unfold firstOcc
  rw [firstOccAux_append_one]
  simp [h]

/-- The dedup invariant of the cycle loop: the prediction counter counts
prediction rows, the vehicle rows are exactly the first occurrence of each
key among the prediction rows, the unique counter counts vehicle rows, and
the seen-set holds exactly the keys already emitted. -/
def Orchestrator.DedupInv (st : Orchestrator.CycleState) : Prop :=
  st.predictions_count = st.prediction_rows.length
  ∧ st.vehicle_rows.map (fun r => r.vehicle_key) =
      firstOcc (st.prediction_rows.map (fun p => p.vehicle_key))
  ∧ st.unique_vehicles = st.vehicle_rows.length
  ∧ ∀ k, k ∈ st.seen_vehicle_keys ↔ k ∈ st.prediction_rows.map (fun p => p.vehicle_key)

/-- One vehicle preserves the dedup invariant. -/
theorem processOneVehicle_dedup (cycle_id : String) (stop : Stop) (result : FetchResult)
    (st : Orchestrator.CycleState) (fields : List (String × Val))
    (hInv : Orchestrator.DedupInv st) :
    Orchestrator.DedupInv (Orchestrator.processOneVehicle cycle_id stop result st fields) := by
  obtain ⟨hcount, hveh, huniq, hseen⟩ := hInv
  unfold Orchestrator.processOneVehicle
  dsimp only
  split
  · next hc =>
    refine ⟨?_, ?_, huniq, ?_⟩
    · simp only [List.length_append, List.length_cons, List.length_nil]
      omega
    · simp only [List.map_append, List.map_cons, List.map_nil]
      rw [firstOcc_append_mem _ _ ((hseen _).mp hc)]
      exact hveh
    · intro k
      simp only [List.map_append, List.map_cons, List.map_nil, List.mem_append,
        List.mem_cons, List.not_mem_nil, or_false]
      constructor
      · intro hk; exact Or.inl ((hseen k).mp hk)
      · intro hk
        rcases hk with hk | hk
        · exact (hseen k).mpr hk
        · exact hk ▸ hc
  · next hc =>
    refine ⟨?_, ?_, ?_, ?_⟩
    · simp only [List.length_append, List.length_cons, List.length_nil]
      omega
    · simp only [List.map_append, List.map_cons, List.map_nil]
      rw [firstOcc_append_not_mem _ _ (fun hmem => hc ((hseen _).mpr hmem))]
      rw [hveh]
      rfl
    · simp only [List.length_append, List.length_cons, List.length_nil]
      omega
    · intro k
      simp only [List.map_append, List.map_cons, List.map_nil, List.mem_append,
        List.mem_cons, List.not_mem_nil, or_false]
      constructor
      · intro hk
        rcases hk with hk | hk
        · exact Or.inl ((hseen k).mp hk)
        · exact Or.inr hk
      · intro hk
        rcases hk with hk | hk
        · exact Or.inl ((hseen k).mpr hk)
        · exact Or.inr hk

/-- The vehicle loop preserves the dedup invariant. -/
theorem processVehicles_dedup (cycle_id : String) (stop : Stop) (result : FetchResult) :
    ∀ (vehicles : List Val) (st st' : Orchestrator.CycleState),
      Orchestrator.DedupInv st →
      Orchestrator.processVehicles cycle_id stop result st vehicles = some st' →
      Orchestrator.DedupInv st' := by
  intro vehicles
  induction vehicles with
  | nil =>
    intro st st' hInv h
    simp only [Orchestrator.processVehicles, Option.some.injEq] at h
    subst h
    exact hInv
  | cons v rest ih =>
    intro st st' hInv h
    cases v <;> simp only [Orchestrator.processVehicles] at h <;>
      try exact absurd h (by simp)
    next fields =>
      exact ih _ _ (processOneVehicle_dedup cycle_id stop result st fields hInv) h

/-- One completed future preserves the dedup invariant. -/
theorem processStop_dedup (cycle_id : String) (now : Int)
    (st st' : Orchestrator.CycleState) (input : Stop × Orchestrator.FutureOutcome)
    (hInv : Orchestrator.DedupInv st)
    (h : Orchestrator.processStop cycle_id now st input = some st') :
    Orchestrator.DedupInv st' := by
  obtain ⟨stop, out⟩ := input
  cases out with
  | exn msg =>
    simp only [Orchestrator.processStop, Option.some.injEq] at h
    subst h
    exact hInv
  | ok result =>
    simp only [Orchestrator.processStop] at h
    split at h
    · simp only [Option.some.injEq] at h
      subst h
      exact hInv
    · refine processVehicles_dedup cycle_id stop result _ _ _ ?_ h
      exact hInv

/-- The aggregation loop preserves the dedup invariant. -/
theorem runCycleFrom_dedup (cycle_id : String) (now : Int) :
    ∀ (inputs : List (Stop × Orchestrator.FutureOutcome)) (st st' : Orchestrator.CycleState),
      Orchestrator.DedupInv st →
      Orchestrator.runCycleFrom cycle_id now st inputs = some st' →
      Orchestrator.DedupInv st' := by
  intro inputs
  induction inputs with
  | nil =>
    intro st st' hInv h
    simp only [Orchestrator.runCycleFrom, Option.some.injEq] at h
    subst h
    exact hInv
  | cons input rest ih =>
    intro st st' hInv h
    simp only [Orchestrator.runCycleFrom] at h
    cases hps : Orchestrator.processStop cycle_id now st input with
    | none => rw [hps] at h; exact absurd h (by simp)
    | some st1 =>
      rw [hps] at h
      exact ih st1 st' (processStop_dedup cycle_id now st st1 input hInv hps) h

/-- The C4 vehicle: a garage-id vehicle reported identically at two
stops. -/
def c4vehicle : Val := .vobj [("garageNo", .vstr "P1234"), ("lineNumber", .vstr "7")]

/-- The payload carrying the one vehicle. -/
def c4payload : Val := .vobj [("vehicles", .vlist [c4vehicle])]

/-- The successful fetch of one stop. -/
def c4result (sc : String) : FetchResult := ⟨sc, 0, c4payload, none, some 200, 5, 1⟩

/-- Two stops that each report the same garage-id vehicle. -/
def c4inputs : List (Stop × Orchestrator.FutureOutcome) :=
  [(⟨1, "1001", "Stop A", 44, 20⟩, .ok (c4result "1001")),
   (⟨2, "1002", "Stop B", 44, 20⟩, .ok (c4result "1002"))]

/-- C4: a prediction row is emitted for every (stop, vehicle) observation,
while a vehicle row is emitted and the unique-vehicle counter incremented
only on the first occurrence of each vehicle key within the cycle — the
vehicle rows carry exactly the first occurrence of each key among the
prediction rows; in particular a cycle whose two stops each report the same
garage-id vehicle yields `predictions = 2` and `unique_vehicles = 1`. -/
theorem c4_first_occurrence_dedup :
    (∀ (cycle_id : String) (now : Int) (inputs : List (Stop × Orchestrator.FutureOutcome)),
       (Orchestrator.runCycle cycle_id now inputs).elim True (fun st =>
         st.predictions_count = st.prediction_rows.length
         ∧ st.vehicle_rows.map (fun r => r.vehicle_key) =
             firstOcc (st.prediction_rows.map (fun p => p.vehicle_key))
         ∧ st.unique_vehicles =
             (firstOcc (st.prediction_rows.map (fun p => p.vehicle_key))).length))
  ∧ (Orchestrator.collect_once "c" 0 c4inputs).map
      (fun s => (s.predictions, s.unique_vehicles)) = some (2, 1) := by
  constructor
  · intro cycle_id now inputs
    cases h : Orchestrator.runCycle cycle_id now inputs with
    | none => exact trivial
    | some st =>
      have hInv0 : Orchestrator.DedupInv Orchestrator.initState := by
        refine ⟨rfl, rfl, rfl, ?_⟩
        intro k
        simp [Orchestrator.initState]
      have hInv := runCycleFrom_dedup cycle_id now inputs Orchestrator.initState st hInv0 h
      obtain ⟨hcount, hveh, huniq, _⟩ := hInv
      refine ⟨hcount, hveh, ?_⟩
      rw [huniq, ← hveh, List.length_map]
  · rfl

end Roundabout
